import Mathlib

/-!
Shallow embedding of the Clipper media-editing job platform (Python sources under
`src/`), covering the parts referenced by the claims: the `_atempo_chain` helper,
the `VideoBuilder` state and its filter-graph compiler (`_build_filter_complex`,
`_build`, `_build_extract_audio_cmd`), the delivery transmuxer command
(`_convert_to_platform_mp4_sync`), the operation dispatch (`VideoBuilder.load` and
`OPERATIONS`), the engine runner's failure path (`execute`), and the job store
operations used by the worker (`Worker.dequeue`, `Worker.error`) and the retry
endpoint (`retry_edit` in `app.py`).

Numeric values that are Python `int`/`float` at runtime are modelled as `ℚ`
(Python float arithmetic on the values the claims touch is exact), and the
rendering of a number into an ffmpeg filter string is modelled by `fmtQ`
(`fmtQ2` for the `"%.2f"` format used for `tpad`'s pad length); `fmtQ` prints
integers without a decimal point and terminating decimals in decimal notation,
standing in for Python's `str()` of the runtime value.

The filter graph is modelled as the list of `parts` strings the source
accumulates, except that each appended part is kept as a structured `Stage`
value whose `render` is exactly the f-string the source appends; the final
`filter_complex` string is the semicolon-join of the rendered stages, exactly
as in the source.  This keeps claims about "stages" (an `amix` stage, a label
produced by a stage) expressible without parsing strings back.
-/

namespace Clipper

set_option maxRecDepth 100000

/-- Python `sep.join(parts)`. -/
def joinSep (sep : String) : List String → String
  | [] => ""
  | [a] => a
  | a :: b :: rest => a ++ sep ++ joinSep sep (b :: rest)

/-- Python `l[-n:]`: the last `n` elements (the whole list when it is shorter). -/
def lastN (n : Nat) (l : List String) : List String := l.drop (l.length - n)

/-- Python `int()` applied to a rational value: truncation toward zero. -/
def pyTrunc (q : ℚ) : Int := if q < 0 then -⌊-q⌋ else ⌊q⌋

/-- Left-pad a decimal digit string with zeros up to width `k`. -/
def padZeros (s : String) (k : Nat) : String :=
  String.mk (List.replicate (k - s.length) '0') ++ s

/-- Rendering of a rational number into a filter string: integers print without a
decimal point, terminating decimals print in decimal notation (shortest form),
other rationals fall back to `num/den`.  Stands in for Python's `str()` of the
runtime `int`/`float` value. -/
def fmtQ (q : ℚ) : String :=
  if q.den = 1 then toString q.num
  else
    match (List.range 21).find? (fun k => 10 ^ k % q.den = 0) with
    | some k =>
        let scaled : Int := q.num * ((10 ^ k / q.den : Nat) : Int)
        let digits : Nat := 10 ^ k
        let sign := if scaled < 0 then "-" else ""
        let a := scaled.natAbs
        sign ++ toString (a / digits) ++ "." ++ padZeros (toString (a % digits)) k
    | none => toString q.num ++ "/" ++ toString q.den

/-- Python `f"{x:.2f}"`: fixed two-decimal rendering (rounding of an exact
half-cent is to nearest, which only differs from C's binary rounding on values
the program never produces). -/
def fmtQ2 (q : ℚ) : String :=
  let c : Int := round (q * 100)
  let sign := if c < 0 then "-" else ""
  let a := c.natAbs
  sign ++ toString (a / 100) ++ "." ++ padZeros (toString (a % 100)) 2

/-- `pat` occurs as a contiguous substring of `s` (used only on concrete strings). -/
def strContains (s pat : String) : Bool := (s.splitOn pat).length ≠ 1

/-! ### `_atempo_chain` (`video_processor.py` lines 161–174)

The source chains `atempo` filters because each accepts only 0.5–2.0: a
`while s > 2.0` loop emitting `atempo=2.0` and halving, then a `while s < 0.5`
loop emitting `atempo=0.5` and doubling, then one `atempo=<s>` remainder.
We model the emitted filter values as rationals. -/

/-- The `while s > 2.0` loop: list of emitted `atempo` values (each `2`) together
with the final value of `s`. -/
def atempoDown (s : ℚ) : List ℚ × ℚ :=
  if h : 2 < s then
    let r := atempoDown (s / 2)
    (2 :: r.1, r.2)
  else ([], s)
termination_by (⌈s⌉).toNat
decreasing_by
  have h1 : (⌈s / 2⌉ : ℤ) ≤ ⌈s - 1⌉ := Int.ceil_le_ceil (by linarith)
  have h2 : (⌈s - 1⌉ : ℤ) = ⌈s⌉ - 1 := by simp [Int.ceil_sub_int s 1]
  have h3 : (0 : ℤ) < ⌈s⌉ := Int.ceil_pos.mpr (by linarith)
  omega

/-- The `while s < 0.5` loop: list of emitted `atempo` values (each `1/2`)
together with the final value of `s`.  The loop is only ever entered with
`0 < s` (`_atempo_chain` raises `ValueError` for `speed <= 0` first); the
positivity conjunct in the guard makes the recursion well-founded and does not
change behaviour for reachable inputs. -/
def atempoUp (s : ℚ) : List ℚ × ℚ :=
  if h : 0 < s ∧ s < 1 / 2 then
    let r := atempoUp (s / (1 / 2))
    ((1 / 2 : ℚ) :: r.1, r.2)
  else ([], s)
termination_by (⌈s⁻¹⌉).toNat
decreasing_by
  obtain ⟨hpos, hlt⟩ := h
  have hq : 2 < s⁻¹ := by
    rw [show (2 : ℚ) = (1 / 2 : ℚ)⁻¹ by norm_num]
    gcongr
  have hinv : (s / (1 / 2))⁻¹ = s⁻¹ / 2 := by field_simp
  rw [hinv]
  have h1 : (⌈s⁻¹ / 2⌉ : ℤ) ≤ ⌈s⁻¹ - 1⌉ := Int.ceil_le_ceil (by linarith)
  have h2 : (⌈s⁻¹ - 1⌉ : ℤ) = ⌈s⁻¹⌉ - 1 := by simp [Int.ceil_sub_int s⁻¹ 1]
  have h3 : (0 : ℤ) < ⌈s⁻¹⌉ := Int.ceil_pos.mpr (by linarith)
  omega

/-- `_atempo_chain(speed)` as the list of filter values; `none` models the
`ValueError` raised for `speed <= 0`. -/
def atempoChainVals (speed : ℚ) : Option (List ℚ) :=
  if speed ≤ 0 then none
  else
    let d := atempoDown speed
    let u := atempoUp d.2
    some (d.1 ++ u.1 ++ [u.2])

/-- `_atempo_chain(speed)` as the comma-joined filter string (empty string in
the unreachable `speed <= 0` case, where the source raises). -/
def atempoChainStr (speed : ℚ) : String :=
  match atempoChainVals speed with
  | some l => joinSep "," (l.map (fun v => "atempo=" ++ fmtQ v))
  | none => ""

/-! ### Operation payloads (`video_processor.py` lines 84–287) -/

/-- `TextSegment` (pydantic model, lines 84–98). -/
structure TextSegment where
  start_sec : ℚ
  end_sec : ℚ
  text : String
  fontsize : Int := 24
  x : String := "10"
  y : String := "10"
  fontfile : Option String := none
  fontcolor : Option String := none
  boxcolor : Option String := none
  boxborderw : Option Int := none
  background : Option Bool := none
deriving DecidableEq, Repr

/-- `WordTiming` (lines 101–104). -/
structure WordTiming where
  word : String
  start_sec : ℚ
  end_sec : ℚ
deriving DecidableEq, Repr

/-- `KaraokeText` (lines 107–119). -/
structure KaraokeText where
  sentence : String
  start_sec : Option ℚ := none
  end_sec : Option ℚ := none
  words : Option (List WordTiming) := none
  fontsize : Int := 60
  x : String := "(w-text_w)/2"
  y : String := "h-200"
  fontcolor : String := "white"
  highlight_fontcolor : Option String := none
  boxcolor : String := "black@1.0"
  boxborderw : Int := 12
  letter_width : Option ℚ := none
  space_width : Option ℚ := none
deriving DecidableEq, Repr

/-- `TimedText` (lines 123–135). -/
structure TimedText where
  text : String
  start_sec : ℚ
  end_sec : ℚ
  fontsize : Int := 60
  x : String := "(w-text_w)/2"
  y : String := "h-200"
  fontcolor : String := "white"
  boxcolor : Option String := none
  boxborderw : Int := 0
  background : Bool := false
  fade_in_ms : Int := 200
  fade_out_ms : Int := 200
deriving DecidableEq, Repr

/-- `TextSequence` (lines 138–150). -/
structure TextSequence where
  items : List TimedText
deriving DecidableEq, Repr

/-- The `TextSequence` pydantic model validator (lines 141–150): a non-empty
item list in which every item has `end_sec > start_sec`. -/
def TextSequence.valid (s : TextSequence) : Bool :=
  (s.items ≠ []) && s.items.all (fun i => i.start_sec < i.end_sec)

/-- `SpeedSegment` (lines 153–158). -/
structure SpeedSegment where
  start_sec : ℚ := 0
  end_sec : ℚ := -1
  speed : ℚ := 1
deriving DecidableEq, Repr

/-- `WatermarkOverlay` (lines 221–226); `position` holds the engine position
expression (the `WatermarkPosition` enum value, default `SAFE_BOTTOM`). -/
structure WatermarkOverlay where
  path : String
  position : String := "(W-w)/2:H-h-80"
  opacity : ℚ := 7 / 10
deriving DecidableEq, Repr

/-- `AudioOverlay` (lines 229–235). -/
structure AudioOverlay where
  path : String
  mix_volume : ℚ := 1
  loop : Bool := false
  mute_source : Bool := false
deriving DecidableEq, Repr

/-- `BackgroundColor` (lines 238–242). -/
structure BackgroundColor where
  color : String := "black"
  only_color : Bool := false
deriving DecidableEq, Repr

/-- `TranscodeOptions` (lines 245–260). -/
structure TranscodeOptions where
  codec : String := "libx264"
  preset : String := "medium"
  crf : Int := 23
  audio_codec : String := "aac"
  audio_bitrate : Option String := none
  movflags : Option String := none
  target_size_mb : Option ℚ := none
  scale : Option String := none
deriving DecidableEq, Repr

/-- `GifOptions` (lines 263–270). -/
structure GifOptions where
  start_time : String := "00:00:00"
  duration : Int := 5
  fps : Int := 10
  scale : Int := 480
  output_codec : String := "gif"
deriving DecidableEq, Repr

/-- `ConvertToPlatformOptions` (lines 273–286). -/
structure ConvertToPlatformOptions where
  platform : Option String := none
  codec : String := "libx264"
  preset : String := "medium"
  crf : Int := 23
  audio_codec : String := "aac"
  audio_bitrate : Option String := some "128k"
  scale : Option String := none
deriving DecidableEq, Repr

/-! ### Builder state (`VideoBuilder.__init__`, lines 744–772) -/

/-- The accumulated mutable state of a `VideoBuilder` (constructor arguments and
the `_trim_*`, `_watermark`, … fields of `__init__`); a karaoke segment is the
pair `(data, timings)` appended by `add_karaoke_text`. -/
structure VideoBuilder where
  input_path : String
  video_format : String := "mp4"
  audio_format : String := "libmp3lame"
  audio_bitrate : String := "192k"
  trim_start : Option ℚ := none
  trim_end : Option ℚ := none
  trim_duration : Option ℚ := none
  watermark : Option WatermarkOverlay := none
  text_segments : List TextSegment := []
  karaoke_segments : List (KaraokeText × List WordTiming) := []
  text_sequences : List TextSequence := []
  speed_segments : List SpeedSegment := []
  background_audio : Option AudioOverlay := none
  background_color : Option BackgroundColor := none
  transcode : Option TranscodeOptions := none
  gif_options : Option GifOptions := none
  convert_to_platform : Option ConvertToPlatformOptions := none
deriving DecidableEq, Repr

/-! ### Builder methods that mutate state (`video_processor.py` lines 836–1021) -/

/-- `VideoBuilder.trim` (lines 836–847): sets the trim triple; when a `duration`
is supplied the stored end is reset to `-1`. -/
def VideoBuilder.trim (b : VideoBuilder) (start_sec : ℚ := 0) (end_sec : ℚ := -1)
    (duration : Option ℚ := none) : VideoBuilder :=
  { b with
    trim_start := some start_sec
    trim_end := some (if duration.isSome then -1 else end_sec)
    trim_duration := duration }

/-- `VideoBuilder.add_watermark` with an overlay argument (lines 849–864). -/
def VideoBuilder.add_watermark (b : VideoBuilder) (overlay : WatermarkOverlay) :
    VideoBuilder :=
  { b with watermark := some overlay }

/-- `VideoBuilder.add_text` (lines 866–875): extends the segment list. -/
def VideoBuilder.add_text (b : VideoBuilder) (segs : List TextSegment) : VideoBuilder :=
  { b with text_segments := b.text_segments ++ segs }

/-- `_split_sentence_words` (lines 660–661): split on whitespace, drop empties. -/
def splitSentenceWords (sentence : String) : List String :=
  (sentence.split (fun c => c.isWhitespace)).filter (fun w => w ≠ "")

/-- `_word_weight` (lines 664–666): the number of word characters (alphanumeric
or underscore, which the Python `\w` class matches on the ASCII inputs the
program handles), at least 1. -/
def wordWeight (word : String) : Nat :=
  max 1 (word.data.filter (fun c => c.isAlphanum || c = '_')).length

/-- The accumulation loop of `_auto_word_timings` (lines 682–689): the last word
is pinned to the sentence end. -/
def autoWordTimingsGo (endSec : ℚ) (dur : ℚ) (total : ℚ) :
    List String → ℚ → List WordTiming
  | [], _ => []
  | [w], current => [⟨w, current, endSec⟩]
  | w :: w2 :: rest, current =>
      let e := current + dur * (wordWeight w : ℚ) / total
      ⟨w, current, e⟩ :: autoWordTimingsGo endSec dur total (w2 :: rest) e

/-- `_auto_word_timings` (lines 669–689). -/
def autoWordTimings (sentence : String) (startSec endSec : ℚ) : List WordTiming :=
  let words := splitSentenceWords sentence
  if words = [] then []
  else
    let dur := endSec - startSec
    if dur ≤ 0 then []
    else
      let total : ℚ := ((words.map wordWeight).sum : Nat)
      autoWordTimingsGo endSec dur total words startSec

/-- `VideoBuilder.add_karaoke_text` (lines 877–898).  `Except` models the
`ValueError` raised when neither word timings nor a sentence range is given. -/
def VideoBuilder.add_karaoke_text (b : VideoBuilder) (data : KaraokeText) :
    Except String VideoBuilder :=
  let sentence := data.sentence.trim
  if sentence = "" then .ok b
  else
    match data.words with
    | some (w :: ws) =>
        let timings := (w :: ws).mergeSort (fun a b => a.start_sec ≤ b.start_sec)
        .ok { b with karaoke_segments := b.karaoke_segments ++ [(data, timings)] }
    | _ =>
        match data.start_sec, data.end_sec with
        | some s, some e =>
            let timings := autoWordTimings sentence s e
            if timings = [] then .ok b
            else .ok { b with karaoke_segments := b.karaoke_segments ++ [(data, timings)] }
        | _, _ => .error "karaoke requires start_sec and end_sec when words are not provided"

/-- `VideoBuilder.add_text_sequence` (lines 900–904). -/
def VideoBuilder.add_text_sequence (b : VideoBuilder) (data : TextSequence) : VideoBuilder :=
  if data.items ≠ [] then { b with text_sequences := b.text_sequences ++ [data] } else b

/-- `VideoBuilder.speed_control` with segment-list argument (lines 906–919). -/
def VideoBuilder.speed_control (b : VideoBuilder) (segs : List SpeedSegment) : VideoBuilder :=
  { b with speed_segments := b.speed_segments ++ segs }

/-- `VideoBuilder.add_background_audio` with an overlay argument (lines 921–936). -/
def VideoBuilder.add_background_audio (b : VideoBuilder) (overlay : AudioOverlay) :
    VideoBuilder :=
  { b with background_audio := some overlay }

/-- `VideoBuilder.set_background_color` with an overlay argument (lines 938–950). -/
def VideoBuilder.set_background_color (b : VideoBuilder) (overlay : BackgroundColor) :
    VideoBuilder :=
  { b with background_color := some overlay }

/-- `VideoBuilder.transcode` with an options argument (lines 952–975). -/
def VideoBuilder.setTranscode (b : VideoBuilder) (options : TranscodeOptions) : VideoBuilder :=
  { b with transcode := some options }

/-- Keyword arguments of `VideoBuilder.compress` (lines 977–1004). -/
structure CompressArgs where
  target_size_mb : Option ℚ := none
  scale : Option String := none
  preset : String := "medium"
  codec : Option String := none
  crf : Option Int := none
  audio_codec : Option String := none
  audio_bitrate : Option String := none
  movflags : Option String := none
deriving DecidableEq, Repr

/-- `VideoBuilder.compress` (lines 977–1004): builds a `TranscodeOptions` with
`compress` defaults, dropping `None` entries (absent entries keep the pydantic
model defaults, which coincide with passing `none`). -/
def VideoBuilder.compress (b : VideoBuilder) (a : CompressArgs) : VideoBuilder :=
  { b with
    transcode := some
      { codec := a.codec.getD "libx264"
        preset := a.preset
        crf := a.crf.getD 23
        audio_codec := a.audio_codec.getD "aac"
        audio_bitrate := some (a.audio_bitrate.getD "128k")
        target_size_mb := a.target_size_mb
        scale := a.scale
        movflags := a.movflags } }

/-- `VideoBuilder.create_gif` (lines 1006–1009). -/
def VideoBuilder.create_gif (b : VideoBuilder) (options : GifOptions) : VideoBuilder :=
  { b with gif_options := some options }

/-- `VideoBuilder.convert_to_platform` with an options argument (lines 1011–1021). -/
def VideoBuilder.convertToPlatform (b : VideoBuilder) (options : ConvertToPlatformOptions) :
    VideoBuilder :=
  { b with convert_to_platform := some options }

/-! ### The filter-graph compiler (`_build_filter_complex`, lines 1187–1390)

The source accumulates a `parts : list[str]` and joins it with `";"`.  Each
appended part is modelled as a structured `Stage` whose `render` is exactly the
f-string the source appends (so `filter_complex` is the semicolon-join of the
rendered stages).  `_get_media_duration(background_audio.path)` performs IO (an
ffprobe call); its result enters the model as the `audioDur` oracle of
`FCInput`.  Likewise `_build_karaoke_ass_files` / `_build_text_sequence_ass_files`
write subtitle files with fresh UUID names and return their paths; the paths
enter the model as the `karaokePaths` / `seqPaths` inputs. -/

/-- `_resolve_end_sec` (lines 543–544). -/
def resolveEndSec (end_sec duration : ℚ) : ℚ :=
  if end_sec < 0 then duration else end_sec

/-- The `trim_end` computation at the top of `_build_filter_complex`
(lines 1200–1204); the identical lines 1403–1407 of `_build_extract_audio_cmd`
are modelled by the same function. -/
def VideoBuilder.trimEnd (b : VideoBuilder) (duration : ℚ) : ℚ :=
  let t := duration
  let t := match b.trim_end with
    | some e => if 0 ≤ e then e else t
    | none => t
  match b.trim_duration, b.trim_start with
  | some d, some s => s + d
  | _, _ => t

/-- `effective_duration` (lines 1205–1209); `trim_end - (self._trim_start or 0)`
is `trim_end - trim_start` because the Python `or 0` only rewrites a falsy `0`. -/
def VideoBuilder.effectiveDuration (b : VideoBuilder) (duration : ℚ) : ℚ :=
  match b.trim_start with
  | some s => b.trimEnd duration - s
  | none => duration

/-- `trim_explicit` (lines 1212–1214). -/
def VideoBuilder.trimExplicit (b : VideoBuilder) : Bool :=
  (match b.trim_end with | some e => decide (0 ≤ e) | none => false) ||
    b.trim_duration.isSome

/-- `output_duration` (lines 1215–1219): extended to the background audio's own
duration when that exceeds the effective duration and trim is not explicit. -/
def VideoBuilder.outputDuration (b : VideoBuilder) (duration audioDur : ℚ) : ℚ :=
  let eff := b.effectiveDuration duration
  if b.background_audio.isSome && !b.trimExplicit &&
      decide (0 < audioDur) && decide (eff < audioDur)
  then audioDur else eff

/-- `use_mute_source_only` (lines 1225–1229). -/
def VideoBuilder.useMuteSourceOnly (b : VideoBuilder) : Bool :=
  (match b.background_audio with | some a => a.mute_source | none => false) &&
    b.trimExplicit

/-- Whether a background color with `only_color` is set. -/
def VideoBuilder.onlyColorSet (b : VideoBuilder) : Bool :=
  match b.background_color with | some bc => bc.only_color | none => false

/-- The speed-segment remapping to the trimmed timeline (lines 1260–1269). -/
def remapSpeedSegments (b : VideoBuilder) (duration : ℚ) : List SpeedSegment :=
  b.speed_segments.map fun s =>
    let e := resolveEndSec s.end_sec duration
    match b.trim_start with
    | some ts => ⟨max 0 (s.start_sec - ts), min (b.trimEnd duration - ts) (e - ts), s.speed⟩
    | none => ⟨s.start_sec, e, s.speed⟩

/-- `_drawtext_enable` (lines 500–502). -/
def drawtextEnable (start_sec end_sec : ℚ) : String :=
  "between(t," ++ fmtQ start_sec ++ "," ++ fmtQ end_sec ++ ")"

/-- `_drawtext_opts` (lines 505–540), as called from `_build_filter_complex`
(line 1305) where `effective_duration` is always supplied, so the output-timeline
conversion happens exactly when `trim_start` is set. -/
def drawtextOpts (seg : TextSegment) (duration : ℚ) (trimStart : Option ℚ)
    (effectiveDuration : ℚ) : String :=
  let se : ℚ × ℚ :=
    match trimStart with
    | some ts =>
        (max 0 (seg.start_sec - ts),
         min effectiveDuration (resolveEndSec seg.end_sec duration - ts))
    | none => (seg.start_sec, resolveEndSec seg.end_sec duration)
  let enable := drawtextEnable se.1 se.2
  let text_esc := seg.text.replace "'" "''"
  let opts :=
    ["enable='" ++ enable ++ "'", "text='" ++ text_esc ++ "'",
     "fontsize=" ++ toString seg.fontsize, "x=" ++ seg.x, "y=" ++ seg.y] ++
    (match seg.fontfile with | some f => ["fontfile='" ++ f ++ "'"] | none => []) ++
    (match seg.fontcolor with | some c => ["fontcolor=" ++ c] | none => []) ++
    (if seg.background.getD false then ["box=1"] else []) ++
    (match seg.boxcolor with | some c => ["boxcolor=" ++ c] | none => []) ++
    (match seg.boxborderw with | some v => ["boxborderw=" ++ toString v] | none => [])
  joinSep ":" opts

/-- One appended element of the `parts` list of `_build_filter_complex`; the
constructor arguments are the values interpolated into the corresponding
f-string, and `Stage.render` is that f-string. -/
inductive Stage where
  | colorOnly (color : String) (w h : Int) (d : ℚ)
  | audioTrimOnlyColor (start stop : ℚ)
  | colorBgSemi (color : String) (w h : Int) (d : ℚ)
  | videoTrim (start stop : ℚ) (withAudioTrim : Bool)
  | speedSingle (vin ain : String) (speed : ℚ)
  | speedMulti (vin ain : String) (segs : List SpeedSegment)
  | speedConcat (n : Nat)
  | textChain (vin : String) (segs : List TextSegment) (duration : ℚ)
      (trimStart : Option ℚ) (effectiveDuration : ℚ)
  | subtitles (vin path label : String)
  | watermarkOverlay (vin : String) (opacity : ℚ) (pos : String)
  | bgAudioOnly (idx : Nat) (stop vol : ℚ)
  | amix (ain : String) (idx : Nat) (srcWeight : String) (vol : ℚ)
  | audioTrimOut (ain : String) (stop : ℚ)
  | tpad (vin : String) (pad : ℚ)
  | overlayBg (vin : String)
  | scaleStage (vin expr : String)
  | terminal (vin ain : String)
deriving DecidableEq, Repr

/-- The f-string of each appended part (cited line numbers are the `parts.append`
sites in `_build_filter_complex`). -/
def Stage.render : Stage → String
  | .colorOnly c w h d =>
      "color=c=" ++ c ++ ":s=" ++ toString w ++ "x" ++ toString h ++
        ":d=" ++ fmtQ d ++ ":r=30[bg]"
  | .audioTrimOnlyColor s e =>
      "[0:a]atrim=start=" ++ fmtQ s ++ ":end=" ++ fmtQ e ++
        ",asetpts=PTS-STARTPTS[a_trim]"
  | .colorBgSemi c w h d =>
      "color=c=" ++ c ++ ":s=" ++ toString w ++ "x" ++ toString h ++
        ":d=" ++ fmtQ d ++ ":r=30[bg];"
  | .videoTrim s e withAudio =>
      "[0:v]trim=start=" ++ fmtQ s ++ ":end=" ++ fmtQ e ++
        ",setpts=PTS-STARTPTS[v_trim]" ++
        (if withAudio then
          ";[0:a]atrim=start=" ++ fmtQ s ++ ":end=" ++ fmtQ e ++
            ",asetpts=PTS-STARTPTS[a_trim]"
         else "")
  | .speedSingle vin ain sp =>
      vin ++ "setpts=PTS/" ++ fmtQ sp ++ "[v_spd];" ++ ain ++ atempoChainStr sp ++
        ",asetpts=PTS-STARTPTS[a_spd]"
  | .speedMulti vin ain segs =>
      joinSep ";" (segs.enum.map fun p =>
        vin ++ "trim=start=" ++ fmtQ p.2.start_sec ++ ":end=" ++ fmtQ p.2.end_sec ++
          ",setpts=PTS/" ++ fmtQ p.2.speed ++ ",setpts=PTS-STARTPTS[v_s" ++
          toString p.1 ++ "]") ++ ";" ++
      joinSep ";" (segs.enum.map fun p =>
        ain ++ "atrim=start=" ++ fmtQ p.2.start_sec ++ ":end=" ++ fmtQ p.2.end_sec ++
          "," ++ atempoChainStr p.2.speed ++ ",asetpts=PTS-STARTPTS[a_s" ++
          toString p.1 ++ "]")
  | .speedConcat n =>
      String.join ((List.range n).map fun i => "[v_s" ++ toString i ++ "]") ++
        "concat=n=" ++ toString n ++ ":v=1:a=0[v_spd];" ++
      String.join ((List.range n).map fun i => "[a_s" ++ toString i ++ "]") ++
        "concat=n=" ++ toString n ++ ":v=0:a=1[a_spd]"
  | .textChain vin segs dur ts eff =>
      vin ++ joinSep "," (segs.map fun seg => "drawtext=" ++ drawtextOpts seg dur ts eff) ++
        "[v_txt]"
  | .subtitles vin path label =>
      vin ++ "subtitles='" ++ path.replace "'" "\\'" ++ "'" ++ label
  | .watermarkOverlay vin opacity pos =>
      "[1]format=rgba,colorchannelmixer=aa=" ++ fmtQ opacity ++ "[wm];" ++
        vin ++ "[wm]overlay=" ++ pos ++ "[v_wm]"
  | .bgAudioOnly idx stop vol =>
      "[" ++ toString idx ++ ":a]atrim=start=0:end=" ++ fmtQ stop ++
        ",asetpts=PTS-STARTPTS,volume=" ++ fmtQ vol ++ "[a_mix]"
  | .amix ain idx srcWeight vol =>
      ain ++ "[" ++ toString idx ++ ":a]amix=inputs=2:duration=longest:weights='" ++
        srcWeight ++ " " ++ fmtQ vol ++ "'[a_mix]"
  | .audioTrimOut ain stop =>
      ain ++ "atrim=start=0:end=" ++ fmtQ stop ++ ",asetpts=PTS-STARTPTS[a_trim_out]"
  | .tpad vin pad =>
      vin ++ "tpad=stop_mode=clone:stop_duration=" ++ fmtQ2 pad ++ "[v_pad]"
  | .overlayBg vin =>
      "[bg]" ++ vin ++ "overlay=(W-w)/2:(H-h)/2[v_bg]"
  | .scaleStage vin expr =>
      vin ++ "scale=" ++ expr ++ "[v_scaled]"
  | .terminal vin ain =>
      vin ++ "setpts=PTS[v_out];" ++ ain ++ "anull[a_out]"

/-- Inputs that `_build_filter_complex` receives from its environment: the probed
source metadata, the optional scale expression, the background-audio duration
probed by `_get_media_duration`, and the subtitle file paths written by the ASS
renderers. -/
structure FCInput where
  duration : ℚ
  width : Option Int := none
  height : Option Int := none
  scale : Option String := none
  audioDur : ℚ := 0
  karaokePaths : List String := []
  seqPaths : List String := []
deriving DecidableEq, Repr

/-- The mutable local state of `_build_filter_complex`: extra inputs, parts list
and the threaded `video_in` / `audio_in` labels. -/
structure FCAcc where
  extra : List String := []
  parts : List Stage := []
  vin : String := "[0:v]"
  ain : String := "[0:a]"
deriving DecidableEq, Repr

/-- `parts.append(...)`. -/
def FCAcc.push (acc : FCAcc) (st : Stage) : FCAcc :=
  { acc with parts := acc.parts ++ [st] }

/-- The trim block shared by the non-`only_color` paths (lines 1252–1258). -/
def stepTrimBlock (b : VideoBuilder) (trimEndV : ℚ) (useMuteOnly : Bool)
    (acc : FCAcc) : FCAcc :=
  match b.trim_start with
  | some ts =>
      let acc := acc.push (.videoTrim ts trimEndV (!useMuteOnly))
      { acc with ain := if !useMuteOnly then "[a_trim]" else "[0:a]", vin := "[v_trim]" }
  | none => acc

/-- The background-color / trim block (lines 1230–1258). -/
def stepCanvasTrim (b : VideoBuilder) (wid hei : Int) (trimEndV outDur : ℚ)
    (useMuteOnly : Bool) (acc : FCAcc) : FCAcc :=
  match b.background_color with
  | some bc =>
      if bc.only_color then
        let acc := acc.push (.colorOnly bc.color wid hei outDur)
        let acc :=
          if !useMuteOnly then
            { acc.push (.audioTrimOnlyColor (b.trim_start.getD 0) trimEndV) with
              ain := "[a_trim]" }
          else { acc with ain := "[0:a]" }
        { acc with vin := "[bg]" }
      else
        let acc := acc.push (.colorBgSemi bc.color wid hei outDur)
        stepTrimBlock b trimEndV useMuteOnly acc
  | none => stepTrimBlock b trimEndV useMuteOnly acc

/-- The speed block (lines 1271–1299), applied to the remapped segments. -/
def stepSpeed (segs : List SpeedSegment) (acc : FCAcc) : FCAcc :=
  match segs with
  | [] => acc
  | [seg] =>
      if seg.speed ≠ 1 then
        { acc.push (.speedSingle acc.vin acc.ain seg.speed) with
          vin := "[v_spd]", ain := "[a_spd]" }
      else acc
  | _ =>
      let n := segs.length
      let acc := acc.push (.speedMulti acc.vin acc.ain segs)
      { acc.push (.speedConcat n) with vin := "[v_spd]", ain := "[a_spd]" }

/-- The drawtext block (lines 1301–1310). -/
def stepText (b : VideoBuilder) (duration effDur : ℚ) (acc : FCAcc) : FCAcc :=
  if b.text_segments ≠ [] then
    { acc.push (.textChain acc.vin b.text_segments duration b.trim_start effDur) with
      vin := "[v_txt]" }
  else acc

/-- The `for i, path in enumerate(ass_files)` loops (lines 1314–1317 and
1321–1324): one `subtitles` part per file, threading the video label. -/
def subtitleFold (base : String) : List String → Nat → FCAcc → FCAcc
  | [], _, acc => acc
  | p :: ps, i, acc =>
      let label := "[" ++ base ++ toString i ++ "]"
      subtitleFold base ps (i + 1) ({ acc.push (.subtitles acc.vin p label) with vin := label })

/-- The karaoke block (lines 1312–1317). -/
def stepKaraoke (b : VideoBuilder) (assPaths : List String) (acc : FCAcc) : FCAcc :=
  if b.karaoke_segments ≠ [] then subtitleFold "v_kar" assPaths 0 acc else acc

/-- The text-sequence block (lines 1319–1324). -/
def stepTextSequences (b : VideoBuilder) (seqPaths : List String) (acc : FCAcc) : FCAcc :=
  if b.text_sequences ≠ [] then subtitleFold "v_seq" seqPaths 0 acc else acc

/-- The watermark block (lines 1326–1334). -/
def stepWatermark (b : VideoBuilder) (acc : FCAcc) : FCAcc :=
  match b.watermark with
  | some wm =>
      { ({ acc with extra := acc.extra ++ [wm.path] }).push
          (.watermarkOverlay acc.vin wm.opacity wm.position) with vin := "[v_wm]" }
  | none => acc

/-- The background-audio block (lines 1336–1365). -/
def stepBgAudio (b : VideoBuilder) (trimExpl : Bool) (outDur : ℚ) (acc : FCAcc) : FCAcc :=
  match b.background_audio with
  | some a =>
      let acc := { acc with extra := acc.extra ++ [a.path] }
      let idx : Nat := 1 + (if b.watermark.isSome then 1 else 0)
      if a.mute_source && trimExpl then
        { acc.push (.bgAudioOnly idx outDur a.mix_volume) with ain := "[a_mix]" }
      else
        let srcWeight := if a.mute_source then "0" else "1"
        let acc := { acc.push (.amix acc.ain idx srcWeight a.mix_volume) with
          ain := "[a_mix]" }
        if trimExpl then
          { acc.push (.audioTrimOut acc.ain outDur) with ain := "[a_trim_out]" }
        else acc
  | none => acc

/-- The video-extension block (lines 1367–1375). -/
def stepTpad (b : VideoBuilder) (effDur outDur : ℚ) (acc : FCAcc) : FCAcc :=
  if decide (effDur < outDur) && !b.onlyColorSet then
    { acc.push (.tpad acc.vin (outDur - effDur)) with vin := "[v_pad]" }
  else acc

/-- The composite-on-color block (lines 1377–1380). -/
def stepOverlayBg (b : VideoBuilder) (acc : FCAcc) : FCAcc :=
  match b.background_color with
  | some bc =>
      if !bc.only_color then { acc.push (.overlayBg acc.vin) with vin := "[v_bg]" }
      else acc
  | none => acc

/-- The optional scale block (lines 1382–1385); Python `if scale:` treats the
empty string as falsy. -/
def stepScale (scale : Option String) (acc : FCAcc) : FCAcc :=
  match scale with
  | some s =>
      if s ≠ "" then { acc.push (.scaleStage acc.vin s) with vin := "[v_scaled]" }
      else acc
  | none => acc

/-- The terminal pass-through (line 1388). -/
def stepTerminal (acc : FCAcc) : FCAcc :=
  acc.push (.terminal acc.vin acc.ain)

/-- `_build_filter_complex` (lines 1187–1390): extra inputs and the parts list.
Python `width or 1920` treats `0` as falsy; probed dimensions are nonzero, so
`Option.getD` models it. -/
def buildFilterStages (b : VideoBuilder) (inp : FCInput) : FCAcc :=
  let wid := inp.width.getD 1920
  let hei := inp.height.getD 1080
  let trimEndV := b.trimEnd inp.duration
  let effDur := b.effectiveDuration inp.duration
  let outDur := b.outputDuration inp.duration inp.audioDur
  let useMuteOnly := b.useMuteSourceOnly
  let trimExpl := b.trimExplicit
  let acc : FCAcc := {}
  let acc := stepCanvasTrim b wid hei trimEndV outDur useMuteOnly acc
  let acc := stepSpeed (remapSpeedSegments b inp.duration) acc
  let acc := stepText b inp.duration effDur acc
  let acc := stepKaraoke b inp.karaokePaths acc
  let acc := stepTextSequences b inp.seqPaths acc
  let acc := stepWatermark b acc
  let acc := stepBgAudio b trimExpl outDur acc
  let acc := stepTpad b effDur outDur acc
  let acc := stepOverlayBg b acc
  let acc := stepScale inp.scale acc
  stepTerminal acc

/-- The `filter_complex` string (line 1389): semicolon-join of the parts. -/
def filterComplex (b : VideoBuilder) (inp : FCInput) : String :=
  joinSep ";" ((buildFilterStages b inp).parts.map Stage.render)

/-! ### `_build_extract_audio_cmd` (lines 1392–1483) -/

/-- The `format_map.get(self._audio_format, "mp3")` table (lines 1396–1402);
the audio format is kept as its codec string (the `AudioFormat` enum value). -/
def audioOutFormat (codec : String) : String :=
  if codec = "libmp3lame" then "mp3"
  else if codec = "aac" then "ipod"
  else if codec = "pcm_s16le" then "wav"
  else if codec = "flac" then "flac"
  else "mp3"

/-- `_build_extract_audio_cmd` (lines 1392–1483): the ffmpeg argument list for
audio extraction, using the builder's trim/speed state.  The `trim_end`
computation (lines 1403–1407) is the same code as in `_build_filter_complex`
and is modelled by the shared `VideoBuilder.trimEnd`. -/
def buildExtractAudioCmd (b : VideoBuilder) (duration : ℚ) : List String :=
  let total_duration := duration
  let codec := b.audio_format
  let out_format := audioOutFormat b.audio_format
  let trim_end := b.trimEnd total_duration
  let duration_sec :=
    match b.trim_start with
    | some s => trim_end - s
    | none => total_duration
  if b.trim_start.isNone && b.speed_segments = [] then
    ["ffmpeg", "-i", b.input_path, "-vn", "-c:a", codec,
     "-b:a", b.audio_bitrate, "-f", out_format]
  else if b.speed_segments = [] then
    ["ffmpeg", "-i", b.input_path, "-vn", "-c:a", codec] ++
      (match b.trim_start with
       | some s => if 0 < s then ["-ss", fmtQ s] else []
       | none => []) ++
      (if b.trim_start.isSome then ["-t", fmtQ duration_sec] else []) ++
      ["-b:a", b.audio_bitrate, "-f", out_format]
  else
    let step1 : List String × String :=
      match b.trim_start with
      | some s =>
          (["[0:a]atrim=start=" ++ fmtQ s ++ ":end=" ++ fmtQ trim_end ++
              ",asetpts=PTS-STARTPTS[a_trim]"], "[a_trim]")
      | none => ([], "[0:a]")
    let audio_in := step1.2
    let speedParts : List String :=
      match b.speed_segments with
      | [seg] =>
          if seg.speed ≠ 1 then
            [audio_in ++ atempoChainStr seg.speed ++ ",asetpts=PTS-STARTPTS[a_out]"]
          else [audio_in ++ "anull[a_out]"]
      | segs =>
          if segs.length > 1 then
            let a_filters := segs.enum.map fun p =>
              let seg := p.2
              let seg_end0 := resolveEndSec seg.end_sec duration_sec
              let se : ℚ × ℚ :=
                match b.trim_start with
                | some ts => (max 0 (seg.start_sec - ts), min duration_sec (seg_end0 - ts))
                | none => (seg.start_sec, seg_end0)
              audio_in ++ "atrim=start=" ++ fmtQ se.1 ++ ":end=" ++ fmtQ se.2 ++ "," ++
                atempoChainStr seg.speed ++ ",asetpts=PTS-STARTPTS[a_s" ++
                toString p.1 ++ "]"
            [joinSep ";" a_filters,
             String.join (segs.enum.map fun p => "[a_s" ++ toString p.1 ++ "]") ++
               "concat=n=" ++ toString segs.length ++ ":v=0:a=1[a_out]"]
          else [audio_in ++ "anull[a_out]"]
    let fc := joinSep ";" (step1.1 ++ speedParts)
    ["ffmpeg", "-i", b.input_path, "-filter_complex", fc, "-map", "[a_out]",
     "-c:a", codec, "-b:a", b.audio_bitrate, "-f", out_format]

/-! ### `_build` for export (lines 1485–1557) -/

/-- The `has_filters` condition (lines 1491–1502). -/
def VideoBuilder.hasFilters (b : VideoBuilder) (opts : TranscodeOptions) : Bool :=
  b.trim_start.isSome || b.speed_segments ≠ [] || b.text_segments ≠ [] ||
  b.karaoke_segments ≠ [] || b.text_sequences ≠ [] || b.watermark.isSome ||
  b.background_audio.isSome || b.background_color.isSome ||
  opts.target_size_mb.isSome || opts.scale.isSome

/-- `_build` in export mode (lines 1485–1557): the full ffmpeg argument list.
The pipeline container is always Matroska (`_PIPELINE_VIDEO_FORMAT`).  The
probe/oracle inputs arrive in `inp`; `_build` passes `opts.scale` as the scale
argument of `_build_filter_complex` (line 1517), modelled by overriding
`inp.scale`.  `duration_sec = info.duration or 1.0` treats a falsy `0` as 1. -/
def buildExportCmd (b : VideoBuilder) (inp : FCInput) : List String :=
  let opts := b.transcode.getD {}
  if !(b.hasFilters opts) then
    ["ffmpeg", "-i", b.input_path, "-c", "copy", "-f", "matroska"]
  else
    let acc := buildFilterStages b { inp with scale := opts.scale }
    let fc := joinSep ";" (acc.parts.map Stage.render)
    let duration_sec := if inp.duration = 0 then 1 else inp.duration
    let base :=
      ["ffmpeg", "-i", b.input_path] ++
      acc.extra.flatMap (fun i => ["-i", i]) ++
      ["-filter_complex", fc, "-map", "[v_out]", "-map", "[a_out]",
       "-c:v", opts.codec, "-preset", opts.preset, "-c:a", opts.audio_codec,
       "-f", "matroska"]
    let rateControl :=
      match opts.target_size_mb with
      | some mb =>
          if 0 < mb then
            let target_bitrate := max 100 (pyTrunc (mb * 8192 / duration_sec) - 128)
            ["-b:v", toString target_bitrate ++ "k",
             "-maxrate", toString (pyTrunc ((target_bitrate : ℚ) * (3 / 2))) ++ "k",
             "-bufsize", toString (target_bitrate * 2) ++ "k"]
          else ["-crf", toString opts.crf]
      | none => ["-crf", toString opts.crf]
    let audioBitratePart :=
      match opts.audio_bitrate with
      | some s => if s ≠ "" then ["-b:a", s] else []
      | none => []
    base ++ rateControl ++ audioBitratePart

/-! ### The delivery transmuxer (`_convert_to_platform_mp4_sync`, lines 356–406) -/

/-- The engine invocation assembled by `_convert_to_platform_mp4_sync`
(lines 372–394): the base command ends with the output path, and the optional
`-b:a` / `-vf scale=` flags are `cmd.extend`ed afterwards (Python `if opts.x:`
treats the empty string as falsy). -/
def convertToPlatformCmd (opts : ConvertToPlatformOptions) (pathIn pathOut : String) :
    List String :=
  ["ffmpeg", "-y", "-i", pathIn, "-c:v", opts.codec, "-preset", opts.preset,
   "-crf", toString opts.crf, "-c:a", opts.audio_codec, "-movflags", "+faststart",
   "-f", "mp4", pathOut] ++
  (match opts.audio_bitrate with
   | some ab => if ab ≠ "" then ["-b:a", ab] else []
   | none => []) ++
  (match opts.scale with
   | some sc => if sc ≠ "" then ["-vf", "scale=" ++ sc] else []
   | none => [])

/-! ### Operation dispatch (`VideoBuilder.OPERATIONS` lines 695–742 and
`VideoBuilder.load` lines 1736–1766)

Per the untyped `{op, data}` wire format, `load` validates `data` against the
per-op pydantic model and calls the mapped method.  The payload is modelled as
a tagged variant (`OpData`); a payload whose tag does not match the op's
declared model stands for a pydantic validation error. -/

inductive OpData where
  | noData
  | trimD (start_sec : ℚ) (end_sec : ℚ) (duration : Option ℚ)
  | compressD (a : CompressArgs)
  | concatD (input_paths : List String)
  | karaokeD (k : KaraokeText)
  | textSequenceD (s : TextSequence)
  | textD (segs : List TextSegment)
  | speedD (segs : List SpeedSegment)
  | watermarkD (w : WatermarkOverlay)
  | audioD (a : AudioOverlay)
  | backgroundColorD (c : BackgroundColor)
  | transcodeD (t : TranscodeOptions)
  | gifD (g : GifOptions)
  | convertD (c : ConvertToPlatformOptions)
deriving DecidableEq, Repr

/-- `"trim"` has no declared model: `data` is passed through as keyword
arguments of `trim` (missing data means the method defaults). -/
def trimOp (b : VideoBuilder) : OpData → Except String VideoBuilder
  | .trimD s e d => .ok (b.trim s e d)
  | .noData => .ok (b.trim 0 (-1) none)
  | _ => .error "bad payload for trim"

/-- `"compress"`: keyword passthrough into `compress`. -/
def compressOp (b : VideoBuilder) : OpData → Except String VideoBuilder
  | .compressD a => .ok (b.compress a)
  | .noData => .ok (b.compress {})
  | _ => .error "bad payload for compress"

/-- `"concat"`: dispatches to the static `concat_videos`, which returns an async
generator rather than the builder; only the dispatch itself (not that return
value) is relevant to any claim, so the builder state is returned unchanged. -/
def concatOp (b : VideoBuilder) : OpData → Except String VideoBuilder
  | _ => .ok b

/-- `"extractAudio"`: dispatches to `extract_audio`, an async generator method;
the worker special-cases this op before ever calling `load`, and only the
dispatch itself is relevant to any claim, so the state is returned unchanged. -/
def extractAudioOp (b : VideoBuilder) : OpData → Except String VideoBuilder
  | _ => .ok b

/-- `"karaoke"`: validates a `KaraokeText` and calls `add_karaoke_text`. -/
def karaokeOp (b : VideoBuilder) : OpData → Except String VideoBuilder
  | .karaokeD k => b.add_karaoke_text k
  | .noData => .error "karaoke requires 'data' field"
  | _ => .error "bad payload for karaoke"

/-- `"textSequence"`: the pydantic model validator runs during validation. -/
def textSequenceOp (b : VideoBuilder) : OpData → Except String VideoBuilder
  | .textSequenceD s =>
      if s.valid then .ok (b.add_text_sequence s)
      else .error "textSequence item end_sec must be greater than start_sec"
  | .noData => .error "textSequence requires 'data' field"
  | _ => .error "bad payload for textSequence"

/-- `"text"` (`many = True`): a list of `TextSegment`s. -/
def textOp (b : VideoBuilder) : OpData → Except String VideoBuilder
  | .textD segs => .ok (b.add_text segs)
  | .noData => .error "text requires 'data' field"
  | _ => .error "bad payload for text"

/-- `"speed"` (`many = True`): a list of `SpeedSegment`s. -/
def speedOp (b : VideoBuilder) : OpData → Except String VideoBuilder
  | .speedD segs => .ok (b.speed_control segs)
  | .noData => .error "speed requires 'data' field"
  | _ => .error "bad payload for speed"

/-- `"watermark"`. -/
def watermarkOp (b : VideoBuilder) : OpData → Except String VideoBuilder
  | .watermarkD w => .ok (b.add_watermark w)
  | .noData => .error "watermark requires 'data' field"
  | _ => .error "bad payload for watermark"

/-- `"audio"`. -/
def audioOp (b : VideoBuilder) : OpData → Except String VideoBuilder
  | .audioD a => .ok (b.add_background_audio a)
  | .noData => .error "audio requires 'data' field"
  | _ => .error "bad payload for audio"

/-- `"backgroundColor"`. -/
def backgroundColorOp (b : VideoBuilder) : OpData → Except String VideoBuilder
  | .backgroundColorD c => .ok (b.set_background_color c)
  | .noData => .error "backgroundColor requires 'data' field"
  | _ => .error "bad payload for backgroundColor"

/-- `"transcode"`. -/
def transcodeOp (b : VideoBuilder) : OpData → Except String VideoBuilder
  | .transcodeD t => .ok (b.setTranscode t)
  | .noData => .error "transcode requires 'data' field"
  | _ => .error "bad payload for transcode"

/-- `"gif"`. -/
def gifOp (b : VideoBuilder) : OpData → Except String VideoBuilder
  | .gifD g => .ok (b.create_gif g)
  | .noData => .error "gif requires 'data' field"
  | _ => .error "bad payload for gif"

/-- `"convertToPlatform"`. -/
def convertToPlatformOp (b : VideoBuilder) : OpData → Except String VideoBuilder
  | .convertD c => .ok (b.convertToPlatform c)
  | .noData => .error "convertToPlatform requires 'data' field"
  | _ => .error "bad payload for convertToPlatform"

/-- The `OPERATIONS` dispatch table (lines 695–742): op name to validated
dispatch; note `download_from_youtube` is absent. -/
def OPERATIONS : List (String × (VideoBuilder → OpData → Except String VideoBuilder)) :=
  [("trim", trimOp), ("compress", compressOp), ("concat", concatOp),
   ("extractAudio", extractAudioOp), ("karaoke", karaokeOp),
   ("textSequence", textSequenceOp), ("text", textOp), ("speed", speedOp),
   ("watermark", watermarkOp), ("audio", audioOp),
   ("backgroundColor", backgroundColorOp), ("transcode", transcodeOp),
   ("gif", gifOp), ("convertToPlatform", convertToPlatformOp)]

/-- `VideoBuilder.load` (lines 1736–1766): `download_from_youtube` returns the
builder unchanged; an op absent from `OPERATIONS` raises
`ValueError(f"{op} is an unknown operation")`; otherwise the payload is
validated and the mapped method is applied. -/
def VideoBuilder.load (b : VideoBuilder) (op : String) (data : OpData) :
    Except String VideoBuilder :=
  if op = "download_from_youtube" then .ok b
  else
    match OPERATIONS.find? (fun e => e.1 == op) with
    | none => .error (op ++ " is an unknown operation")
    | some e => e.2 b data

/-! ### The job store (`db.py`, `worker.py`, `app.py`)

The `jobs` table (`db.py` lines 101–116) is modelled as a list of rows;
timestamps are abstract `Nat` ordinals and the `CURRENT_TIMESTAMP` of an UPDATE
is a `now` parameter.  The jsonb `output` and `action` blobs are kept
abstract as strings. -/

/-- One row of the `jobs` table (`db.py` lines 101–116). -/
structure JobRow where
  id : Nat
  uid : String
  created_at : Nat
  updated_at : Nat
  output_version : Int
  input : Option String
  output : Option String
  action : String
  status : String
  retries : Int
  error : Option String
  progress : Int
deriving DecidableEq, Repr

/-- The WHERE predicate of the `current_job` CTE of `Worker.dequeue`
(`worker.py` lines 290–299): status queued, retries within bound, and no row of
the same `uid` at `output_version - 1` in a status other than completed. -/
def dequeueEligible (tbl : List JobRow) (maxRetries : Int) (j : JobRow) : Bool :=
  decide (j.status = "queued") && decide (j.retries ≤ maxRetries) &&
  !(tbl.any fun p =>
      decide (p.uid = j.uid) && decide (p.output_version = j.output_version - 1) &&
      decide (p.status ≠ "completed"))

/-- `ORDER BY j.created_at LIMIT 1`: a row of minimal `created_at` (ties broken
by list position, which the SQL leaves unspecified). -/
def oldestFirst : List JobRow → Option JobRow
  | [] => none
  | j :: rest =>
      match oldestFirst rest with
      | none => some j
      | some k => if j.created_at ≤ k.created_at then some j else some k

/-- The `previous_output` correlated subquery (`worker.py` lines 282–288):
`output` of a first row with the same `uid` at `output_version - 1`
(`none` when no such row exists). -/
def previousOutputOf (tbl : List JobRow) (j : JobRow) : Option (Option String) :=
  (tbl.find? fun p =>
      decide (p.uid = j.uid) && decide (p.output_version = j.output_version - 1)).map
    (fun p => p.output)

/-- `Worker.dequeue` (`worker.py` lines 274–330): the single CTE statement
selects the oldest eligible queued row, updates it to processing, and returns
the updated row together with the predecessor's `output`; the new table state
is returned alongside. -/
def dequeue (tbl : List JobRow) (maxRetries : Int) (now : Nat) :
    Option (JobRow × Option (Option String) × List JobRow) :=
  match oldestFirst (tbl.filter (dequeueEligible tbl maxRetries)) with
  | none => none
  | some j =>
      some ({ j with status := "processing", updated_at := now },
            previousOutputOf tbl j,
            tbl.map fun r =>
              if r.id = j.id then { r with status := "processing", updated_at := now }
              else r)

/-- The tail-of-stderr failure text of `execute` (`video_processor.py`
lines 484–488): the `RuntimeError` message is the prefix
`ffmpeg/ffprobe exited with code <code>: ` followed by the last 100 stderr
lines joined by newline. -/
def engineErrorText (returncode : Int) (stderrLines : List String) : String :=
  "ffmpeg/ffprobe exited with code " ++ toString returncode ++ ": " ++
    joinSep "\n" (lastN 100 stderrLines)

/-- The exit handling of `execute`: failure (with the `RuntimeError` message)
exactly when the exit code is non-zero. -/
def executeOutcome (returncode : Int) (stderrLines : List String) : Option String :=
  if returncode ≠ 0 then some (engineErrorText returncode stderrLines) else none

/-- `Worker.error` (`worker.py` lines 379–394): status to error, `updated_at`
refreshed, retries incremented, `error` set to the supplied text. -/
def workerError (tbl : List JobRow) (jobId : Nat) (err : String) (now : Nat) :
    List JobRow :=
  tbl.map fun r =>
    if r.id = jobId then
      { r with status := "error", updated_at := now, retries := r.retries + 1,
               error := some err }
    else r

/-- `retry_edit` (`app.py` lines 259–281): 404 when the row does not exist, 400
(row untouched) unless the status is error, cancelled or completed, otherwise a
`db_update` setting `status=queued`, `error=NULL`, `retries=0` on that id (the
endpoint does not touch `updated_at`). -/
def retryEdit (tbl : List JobRow) (editId : Nat) : Except Nat (List JobRow) :=
  match tbl.find? (fun r => r.id == editId) with
  | none => .error 404
  | some row =>
      if row.status = "error" ∨ row.status = "cancelled" ∨ row.status = "completed" then
        .ok (tbl.map fun r =>
          if r.id = editId then { r with status := "queued", error := none, retries := 0 }
          else r)
      else .error 400

/-! ### Concrete fixtures used by witnesses and counterexamples -/

/-- A processing job row (fields: id, uid, created_at, updated_at,
output_version, input, output, action, status, retries, error, progress). -/
def rowProcessing : JobRow :=
  ⟨1, "u", 10, 10, 0, some "https://example.com/demo.mp4", none, "[]",
   "processing", 2, none, 40⟩

/-- An errored job row eligible for retry. -/
def rowErrored : JobRow :=
  ⟨1, "u", 10, 10, 0, some "https://example.com/demo.mp4", none, "[]",
   "error", 3, some "boom", 40⟩

/-- A completed workflow step 0 with an output blob. -/
def rowStep0Done : JobRow :=
  ⟨1, "wf", 10, 11, 0, some "https://example.com/demo.mp4",
   some "\x7b\"filename\": \"demo_output_wf_0.mp4\"\x7d", "[]", "completed", 0, none, 100⟩

/-- A queued workflow step 1 depending on step 0. -/
def rowStep1Queued : JobRow :=
  ⟨2, "wf", 12, 12, 1, none, none, "[]", "queued", 0, none, 0⟩

/-- The §8.5 example state: trim to 40 s and muted-source background audio at
half volume. -/
def exampleMuteTrimBuilder : VideoBuilder :=
  (({ input_path := "input.mp4" } : VideoBuilder).trim 0 40 none).add_background_audio
    { path := "long_music.mp3", mix_volume := 1 / 2, mute_source := true }

/-- The §8.4 example state: background audio at half volume, no trim
(30 s source, 60 s audio). -/
def exampleAudioLongerBuilder : VideoBuilder :=
  ({ input_path := "input.mp4" } : VideoBuilder).add_background_audio
    { path := "long_music.mp3", mix_volume := 1 / 2 }

/-- The §8.4 example state with an `only_color` background added. -/
def exampleOnlyColorAudioBuilder : VideoBuilder :=
  (({ input_path := "input.mp4" } : VideoBuilder).set_background_color
      { color := "black", only_color := true }).add_background_audio
    { path := "long_music.mp3", mix_volume := 1 / 2 }

/-- An export example: `compress(target_size_mb=5)` on a 30 s source (the
unit-test expectation is `-b:v 1237k -maxrate 1855k -bufsize 2474k`). -/
def exampleCompressBuilder : VideoBuilder :=
  ({ input_path := "input.mp4" } : VideoBuilder).compress { target_size_mb := some 5 }

/-- The `TranscodeOptions` stored by `exampleCompressBuilder`. -/
def exampleCompressOpts : TranscodeOptions :=
  { codec := "libx264"
    preset := "medium"
    crf := 23
    audio_codec := "aac"
    audio_bitrate := some "128k"
    movflags := none
    target_size_mb := some 5
    scale := none }

/-- Probe input for the export example: a 30 s source. -/
def exampleExportInput : FCInput := { duration := 30 }

/-- Is a stage the `tpad` video-extension stage? -/
def Stage.isTpad : Stage → Bool
  | .tpad .. => true
  | _ => false

/-- Is a stage the `amix` mixing stage? -/
def Stage.isAmix : Stage → Bool
  | .amix .. => true
  | _ => false

/-- Does a stage produce the `[a_trim]` label (the `[0:a]atrim...[a_trim]`
clauses of the canvas/trim block)? -/
def Stage.producesATrim : Stage → Bool
  | .audioTrimOnlyColor .. => true
  | .videoTrim _ _ withAudio => withAudio
  | _ => false

/-! ### Theorems about `_atempo_chain` -/

/-- Measure lemma: halving a rational above 2 strictly decreases `⌈·⌉.toNat`
(the well-founded measure of the two loops of `_atempo_chain`). -/
theorem ceil_half_toNat_lt {q : ℚ} (h : 2 < q) : (⌈q / 2⌉).toNat < (⌈q⌉).toNat := by
  have h1 : (⌈q / 2⌉ : ℤ) ≤ ⌈q - 1⌉ := Int.ceil_le_ceil (by linarith)
  have h2 : (⌈q - 1⌉ : ℤ) = ⌈q⌉ - 1 := by simp [Int.ceil_sub_int q 1]
  have h3 : (0 : ℤ) < ⌈q⌉ := Int.ceil_pos.mpr (by linarith)
  omega

/-- Auxiliary: the reciprocal of a positive rational below one half exceeds 2. -/
theorem two_lt_inv_of_lt_half {s : ℚ} (h1 : 0 < s) (h2 : s < 1 / 2) : 2 < s⁻¹ := by
  rw [show (2 : ℚ) = (1 / 2 : ℚ)⁻¹ by norm_num]
  gcongr

/-- Auxiliary: doubling inverts to halving the reciprocal. -/
theorem inv_div_half (s : ℚ) : (s / (1 / 2))⁻¹ = s⁻¹ / 2 := by
  field_simp

theorem atempoDown_prod (s : ℚ) : (atempoDown s).1.prod * (atempoDown s).2 = s := by
  rw [atempoDown]
  split
  · rename_i h
    have ih := atempoDown_prod (s / 2)
    simp only [List.prod_cons]
    rw [mul_assoc, ih]
    ring
  · simp
termination_by (⌈s⌉).toNat
decreasing_by exact ceil_half_toNat_lt (by assumption)

theorem atempoDown_snd_le_two (s : ℚ) : (atempoDown s).2 ≤ 2 := by
  rw [atempoDown]
  split
  · rename_i h
    exact atempoDown_snd_le_two (s / 2)
  · rename_i h
    simpa using le_of_not_lt h
termination_by (⌈s⌉).toNat
decreasing_by exact ceil_half_toNat_lt (by assumption)

theorem atempoDown_snd_pos (s : ℚ) (h : 0 < s) : 0 < (atempoDown s).2 := by
  rw [atempoDown]
  split
  · rename_i h2
    exact atempoDown_snd_pos (s / 2) (by positivity)
  · simpa
termination_by (⌈s⌉).toNat
decreasing_by exact ceil_half_toNat_lt (by assumption)

theorem atempoDown_fst_replicate (s : ℚ) :
    (atempoDown s).1 = List.replicate (atempoDown s).1.length 2 := by
  rw [atempoDown]
  split
  · rename_i h
    have ih := atempoDown_fst_replicate (s / 2)
    simp [List.replicate_succ, ← ih]
  · simp
termination_by (⌈s⌉).toNat
decreasing_by exact ceil_half_toNat_lt (by assumption)

theorem atempoUp_prod (s : ℚ) : (atempoUp s).1.prod * (atempoUp s).2 = s := by
  rw [atempoUp]
  split
  · rename_i h
    have ih := atempoUp_prod (s / (1 / 2))
    simp only [List.prod_cons]
    rw [mul_assoc, ih]
    ring
  · simp
termination_by (⌈s⁻¹⌉).toNat
decreasing_by
  rename_i h
  rw [inv_div_half]
  exact ceil_half_toNat_lt (two_lt_inv_of_lt_half h.1 h.2)

theorem atempoUp_snd_ge_half (s : ℚ) (h : 0 < s) : 1 / 2 ≤ (atempoUp s).2 := by
  rw [atempoUp]
  split
  · rename_i h2
    exact atempoUp_snd_ge_half (s / (1 / 2)) (by positivity)
  · rename_i h2
    have := not_and.mp h2 h
    simpa using le_of_not_lt this
termination_by (⌈s⁻¹⌉).toNat
decreasing_by
  rename_i h2
  rw [inv_div_half]
  exact ceil_half_toNat_lt (two_lt_inv_of_lt_half h2.1 h2.2)

theorem atempoUp_snd_le (s : ℚ) (h : s ≤ 2) : (atempoUp s).2 ≤ 2 := by
  rw [atempoUp]
  split
  · rename_i h2
    exact atempoUp_snd_le (s / (1 / 2)) (by nlinarith [h2.2])
  · simpa
termination_by (⌈s⁻¹⌉).toNat
decreasing_by
  rename_i h2
  rw [inv_div_half]
  exact ceil_half_toNat_lt (two_lt_inv_of_lt_half h2.1 h2.2)

theorem atempoUp_fst_replicate (s : ℚ) :
    (atempoUp s).1 = List.replicate (atempoUp s).1.length (1 / 2 : ℚ) := by
  rw [atempoUp]
  split
  · rename_i h
    have ih := atempoUp_fst_replicate (s / (1 / 2))
    show (1 / 2 : ℚ) :: (atempoUp (s / (1 / 2))).1 =
      List.replicate ((1 / 2 : ℚ) :: (atempoUp (s / (1 / 2))).1).length (1 / 2 : ℚ)
    rw [List.length_cons, List.replicate_succ]
    exact congrArg (List.cons _) ih
  · simp
termination_by (⌈s⁻¹⌉).toNat
decreasing_by
  rename_i h
  rw [inv_div_half]
  exact ceil_half_toNat_lt (two_lt_inv_of_lt_half h.1 h.2)

/-- Claim C3: for every speed factor `f > 0`, the atempo filter chain emitted by
`_atempo_chain` is a sequence of `atempo=2.0` entries, then `atempo=0.5` entries,
then one remainder entry whose value lies in `[0.5, 2.0]`, and the product of the
filter values equals `f`. -/
theorem atempo_chain_product (f : ℚ) (hf : 0 < f) :
    ∃ l, atempoChainVals f = some l ∧ l.prod = f ∧
      ∃ a b r, l = List.replicate a (2 : ℚ) ++ List.replicate b (1 / 2 : ℚ) ++ [r] ∧
        1 / 2 ≤ r ∧ r ≤ 2 := by
  have hnle : ¬ f ≤ 0 := not_le.mpr hf
  refine ⟨(atempoDown f).1 ++ ((atempoUp (atempoDown f).2).1 ++
    [(atempoUp (atempoDown f).2).2]), ?_, ?_, ?_⟩
  · simp [atempoChainVals, hnle]
  · calc ((atempoDown f).1 ++ ((atempoUp (atempoDown f).2).1 ++
          [(atempoUp (atempoDown f).2).2])).prod
        = (atempoDown f).1.prod * ((atempoUp (atempoDown f).2).1.prod *
            (atempoUp (atempoDown f).2).2) := by
          simp [List.prod_append, mul_assoc]
      _ = (atempoDown f).1.prod * (atempoDown f).2 := by rw [atempoUp_prod]
      _ = f := atempoDown_prod f
  · refine ⟨(atempoDown f).1.length, (atempoUp (atempoDown f).2).1.length,
      (atempoUp (atempoDown f).2).2, ?_, ?_, ?_⟩
    · rw [← atempoDown_fst_replicate, ← atempoUp_fst_replicate, List.append_assoc]
    · exact atempoUp_snd_ge_half _ (atempoDown_snd_pos f hf)
    · exact atempoUp_snd_le _ (atempoDown_snd_le_two f)

/-- Witness for `atempo_chain_product` at the concrete speed factor 5. -/
theorem atempo_chain_product_witness :
    0 < (5 : ℚ) ∧ ∃ l, atempoChainVals 5 = some l ∧ l.prod = 5 ∧
      ∃ a b r, l = List.replicate a (2 : ℚ) ++ List.replicate b (1 / 2 : ℚ) ++ [r] ∧
        1 / 2 ≤ r ∧ r ≤ 2 :=
  ⟨by norm_num, atempo_chain_product 5 (by norm_num)⟩


/-! ### Claim theorems: trim precedence, dispatch, transmuxer, error path, retry -/

/-- Claim C10: when `trim` is called with both an `end_sec ≥ 0` and a duration,
the duration takes precedence: the stored trim end is reset to `-1`, and the
effective trim end used by every subsequently built command (the shared
`VideoBuilder.trimEnd`, which models the identical computations in
`_build_filter_complex` lines 1200–1204 and `_build_extract_audio_cmd`
lines 1403–1407) is `start_sec + duration`, independent of the supplied
`end_sec`; the effective output duration is the supplied duration. -/
theorem trim_duration_precedence (b : VideoBuilder) (s e d : ℚ) (he : 0 ≤ e) :
    (b.trim s e (some d)).trim_end = some (-1) ∧
    (∀ dur : ℚ, (b.trim s e (some d)).trimEnd dur = s + d) ∧
    (∀ dur : ℚ, (b.trim s e (some d)).effectiveDuration dur = d) := by
  refine ⟨rfl, fun dur => rfl, fun dur => ?_⟩
  show s + d - s = d
  ring

/-- Witness for `trim_duration_precedence` at `start_sec = 2`, `end_sec = 10`,
`duration = 5`. -/
theorem trim_duration_precedence_witness :
    (0 : ℚ) ≤ 10 ∧
    ((({ input_path := "v.mp4" } : VideoBuilder).trim 2 10 (some 5)).trim_end = some (-1) ∧
     (∀ dur : ℚ,
        (({ input_path := "v.mp4" } : VideoBuilder).trim 2 10 (some 5)).trimEnd dur = 2 + 5) ∧
     (∀ dur : ℚ,
        (({ input_path := "v.mp4" } : VideoBuilder).trim 2 10 (some 5)).effectiveDuration dur = 5)) :=
  ⟨by norm_num, trim_duration_precedence { input_path := "v.mp4" } 2 10 5 (by norm_num)⟩

/-- Claim C8 (code bug): with the default `ConvertToPlatformOptions` (whose
`audio_bitrate` defaults to `"128k"`), the transmuxer's argument vector does not
end with the output file path: the optional `-b:a` flag is appended after the
output path, so the final element is `"128k"` and the claimed shape (optional
flags among the engine options before the path, path last) does not hold. -/
theorem convert_to_platform_flags_after_output :
    (convertToPlatformCmd {} "media/convert_tmp/t/input.mkv"
        "media/convert_tmp/t/output.mp4").getLast? = some "128k" ∧
    (convertToPlatformCmd {} "media/convert_tmp/t/input.mkv"
        "media/convert_tmp/t/output.mp4").getLast? ≠
      some "media/convert_tmp/t/output.mp4" ∧
    convertToPlatformCmd {} "media/convert_tmp/t/input.mkv"
        "media/convert_tmp/t/output.mp4" =
      ["ffmpeg", "-y", "-i", "media/convert_tmp/t/input.mkv", "-c:v", "libx264",
       "-preset", "medium", "-crf", "23", "-c:a", "aac", "-movflags", "+faststart",
       "-f", "mp4", "media/convert_tmp/t/output.mp4", "-b:a", "128k"] := by
  refine ⟨rfl, by decide, rfl⟩

/-- Claim C9: `load` with op `"download_from_youtube"` returns the builder with
every accumulated-state field unchanged (it is the identity on the builder
state), `"download_from_youtube"` is absent from the `OPERATIONS` dispatch
table, and every other op name absent from the table is rejected with the
unknown-operation error. -/
theorem download_from_youtube_identity (b : VideoBuilder) (d : OpData) :
    b.load "download_from_youtube" d = .ok b ∧
    OPERATIONS.find? (fun e => e.1 == "download_from_youtube") = none ∧
    (∀ op d2, OPERATIONS.find? (fun e => e.1 == op) = none →
      op ≠ "download_from_youtube" →
      b.load op d2 = .error (op ++ " is an unknown operation")) := by
  refine ⟨rfl, rfl, fun op d2 hfind hne => ?_⟩
  unfold VideoBuilder.load
  rw [if_neg hne, hfind]

/-- Witness for `download_from_youtube_identity`: the concrete unknown op
`"bogusOp"` is rejected. -/
theorem download_from_youtube_identity_witness :
    ({ input_path := "a.mp4" } : VideoBuilder).load "bogusOp" .noData =
      .error ("bogusOp" ++ " is an unknown operation") :=
  (download_from_youtube_identity { input_path := "a.mp4" } .noData).2.2 "bogusOp"
    .noData rfl (by decide)

/-- Claim C2 counterexample: the engine runner fails on exit code 1 with a
message that carries the exit code as a prefix, so the text recorded in
`jobs.error` is not the bare newline-join of the last stderr lines. -/
theorem engine_error_text_counterexample :
    executeOutcome 1 ["a", "b"] = some "ffmpeg/ffprobe exited with code 1: a\nb" ∧
    executeOutcome 1 ["a", "b"] ≠ some (joinSep "\n" (lastN 100 ["a", "b"])) := by
  refine ⟨rfl, by decide⟩

/-- Claim C2 (amended): when the engine subprocess exits with a non-zero code
the runner fails, and the error text the worker records in `jobs.error` equals
`"ffmpeg/ffprobe exited with code <code>: "` followed by the last 100 (or
fewer) stderr lines joined by newline; `retries` is incremented by 1 and the
status set to error, with all other rows untouched. -/
theorem worker_records_engine_failure (tbl : List JobRow) (r : JobRow)
    (code : Int) (lines : List String) (now : Nat) (msg : String)
    (hr : r ∈ tbl) (hout : executeOutcome code lines = some msg) :
    msg = "ffmpeg/ffprobe exited with code " ++ toString code ++ ": " ++
      joinSep "\n" (lastN 100 lines) ∧
    ({ r with
        status := "error"
        updated_at := now
        retries := r.retries + 1
        error := some msg } ∈ workerError tbl r.id msg now) ∧
    (∀ x ∈ tbl, x.id ≠ r.id → x ∈ workerError tbl r.id msg now) := by
  refine ⟨?_, ?_, ?_⟩
  · unfold executeOutcome at hout
    by_cases hc : code ≠ 0
    · rw [if_pos hc] at hout
      exact (Option.some_injective _ hout.symm).symm ▸ rfl
    · rw [if_neg hc] at hout
      exact absurd hout (by simp)
  · refine List.mem_map.mpr ⟨r, hr, ?_⟩
    simp
  · intro x hx hne
    refine List.mem_map.mpr ⟨x, hx, ?_⟩
    simp [hne]


/-- Witness for `worker_records_engine_failure`: a one-row table, exit code 1,
a single stderr line. -/
theorem worker_records_engine_failure_witness :
    rowProcessing ∈ [rowProcessing] ∧
    executeOutcome 1 ["x"] = some "ffmpeg/ffprobe exited with code 1: x" ∧
    ("ffmpeg/ffprobe exited with code 1: x" =
        "ffmpeg/ffprobe exited with code " ++ toString (1 : Int) ++ ": " ++
          joinSep "\n" (lastN 100 ["x"]) ∧
      ({ rowProcessing with
          status := "error"
          updated_at := 7
          retries := rowProcessing.retries + 1
          error := some "ffmpeg/ffprobe exited with code 1: x" } ∈
        workerError [rowProcessing] rowProcessing.id
          "ffmpeg/ffprobe exited with code 1: x" 7) ∧
      (∀ x ∈ [rowProcessing], x.id ≠ rowProcessing.id →
        x ∈ workerError [rowProcessing] rowProcessing.id
          "ffmpeg/ffprobe exited with code 1: x" 7)) :=
  ⟨by decide, rfl,
   worker_records_engine_failure [rowProcessing] rowProcessing 1 ["x"] 7
     "ffmpeg/ffprobe exited with code 1: x" (by decide) rfl⟩

/-- Claim C7: `POST /edits/{id}/retry` on an existing row whose status is
error, cancelled or completed updates exactly that row to `status=queued`,
`error=NULL`, `retries=0` — making it eligible for dequeue again whenever its
DAG predecessor condition holds (in particular always for jobs without a
predecessor row) — and on any other current status fails with a 400 error,
leaving the table untouched. -/
theorem retry_edit_requeues (tbl : List JobRow) (row : JobRow) (maxR : Int)
    (hfind : tbl.find? (fun r => r.id == row.id) = some row) (hmax : 0 ≤ maxR) :
    ((row.status = "error" ∨ row.status = "cancelled" ∨ row.status = "completed") →
      retryEdit tbl row.id = .ok (tbl.map fun r =>
        if r.id = row.id then { r with status := "queued", error := none, retries := 0 }
        else r) ∧
      ({ row with status := "queued", error := none, retries := 0 } ∈
        (tbl.map fun r =>
          if r.id = row.id then { r with status := "queued", error := none, retries := 0 }
          else r)) ∧
      ((∀ p ∈ (tbl.map fun r =>
          if r.id = row.id then { r with status := "queued", error := none, retries := 0 }
          else r), p.uid = row.uid → p.output_version = row.output_version - 1 →
            p.status = "completed") →
        dequeueEligible
          (tbl.map fun r =>
            if r.id = row.id then { r with status := "queued", error := none, retries := 0 }
            else r) maxR
          { row with status := "queued", error := none, retries := 0 } = true)) ∧
    (¬(row.status = "error" ∨ row.status = "cancelled" ∨ row.status = "completed") →
      retryEdit tbl row.id = .error 400) := by
  have hmem : row ∈ tbl := List.mem_of_find?_eq_some hfind
  have hred : retryEdit tbl row.id =
      if row.status = "error" ∨ row.status = "cancelled" ∨ row.status = "completed" then
        .ok (tbl.map fun r =>
          if r.id = row.id then { r with status := "queued", error := none, retries := 0 }
          else r)
      else .error 400 := by
    unfold retryEdit
    rw [hfind]
  constructor
  · intro hstat
    refine ⟨?_, ?_, ?_⟩
    · rw [hred, if_pos hstat]
    · exact List.mem_map.mpr ⟨row, hmem, by simp⟩
    · intro hpred
      unfold dequeueEligible
      rw [Bool.and_eq_true, Bool.and_eq_true]
      refine ⟨⟨by simp, by simpa using hmax⟩, ?_⟩
      rw [Bool.not_eq_true', List.any_eq_false]
      intro p hp
      by_cases h1 : p.uid = row.uid
      · by_cases h2 : p.output_version = row.output_version - 1
        · have hps := hpred p hp h1 h2
          simp [hps]
        · simp [h2]
      · simp [h1]
  · intro hstat
    rw [hred, if_neg hstat]

/-- Witness for `retry_edit_requeues`: a one-row table holding an errored job;
its retry requeues it and it is dequeue-eligible again. -/
theorem retry_edit_requeues_witness :
    ([rowErrored].find? (fun r => r.id == rowErrored.id) = some rowErrored ∧
      (0 : Int) ≤ 5) ∧
    (((rowErrored.status = "error" ∨ rowErrored.status = "cancelled" ∨
        rowErrored.status = "completed") →
      retryEdit [rowErrored] rowErrored.id = .ok ([rowErrored].map fun r =>
        if r.id = rowErrored.id then
          { r with status := "queued", error := none, retries := 0 } else r) ∧
      ({ rowErrored with status := "queued", error := none, retries := 0 } ∈
        ([rowErrored].map fun r =>
          if r.id = rowErrored.id then
            { r with status := "queued", error := none, retries := 0 } else r)) ∧
      ((∀ p ∈ ([rowErrored].map fun r =>
          if r.id = rowErrored.id then
            { r with status := "queued", error := none, retries := 0 } else r),
          p.uid = rowErrored.uid → p.output_version = rowErrored.output_version - 1 →
            p.status = "completed") →
        dequeueEligible
          ([rowErrored].map fun r =>
            if r.id = rowErrored.id then
              { r with status := "queued", error := none, retries := 0 } else r) 5
          { rowErrored with status := "queued", error := none, retries := 0 } = true)) ∧
    (¬(rowErrored.status = "error" ∨ rowErrored.status = "cancelled" ∨
        rowErrored.status = "completed") →
      retryEdit [rowErrored] rowErrored.id = .error 400)) :=
  ⟨⟨by decide, by decide⟩, retry_edit_requeues [rowErrored] rowErrored 5 (by decide) (by decide)⟩


/-- `ORDER BY ... LIMIT 1` returns one of the rows it orders. -/
theorem oldestFirst_mem : ∀ {l : List JobRow} {x : JobRow},
    oldestFirst l = some x → x ∈ l := by
  intro l
  induction l with
  | nil => intro x h; exact Option.noConfusion h
  | cons j rest ih =>
      intro x h
      unfold oldestFirst at h
      split at h
      · injection h with h2
        subst h2
        exact List.mem_cons_self _ _
      · rename_i k heq
        split at h
        · injection h with h2
          subst h2
          exact List.mem_cons_self _ _
        · injection h with h2
          subst h2
          exact List.mem_cons_of_mem _ (ih heq)

/-- Claim C1: a job returned by `Worker.dequeue` comes from a row that was
QUEUED with `retries ≤ max_retries` and whose same-`uid` rows at
`output_version − 1` (if any — in particular the unique predecessor of a
workflow step with `output_version = k > 0`) are all COMPLETED; the same single
statement transitions exactly the selected row to PROCESSING and returns the
predecessor's `output` (none when no predecessor row exists). -/
theorem dequeue_dag_eligibility (tbl : List JobRow) (maxR : Int) (now : Nat)
    (j : JobRow) (prev : Option (Option String)) (tbl2 : List JobRow)
    (h : dequeue tbl maxR now = some (j, prev, tbl2)) :
    ∃ j0 ∈ tbl,
      j = { j0 with status := "processing", updated_at := now } ∧
      j0.status = "queued" ∧ j0.retries ≤ maxR ∧
      (∀ p ∈ tbl, p.uid = j0.uid → p.output_version = j0.output_version - 1 →
        p.status = "completed") ∧
      tbl2 = tbl.map (fun r =>
        if r.id = j0.id then { r with status := "processing", updated_at := now }
        else r) ∧
      ((∀ p ∈ tbl, ¬(p.uid = j0.uid ∧ p.output_version = j0.output_version - 1)) →
        prev = none) ∧
      (∀ p ∈ tbl, p.uid = j0.uid → p.output_version = j0.output_version - 1 →
        (∀ q ∈ tbl, q.uid = j0.uid → q.output_version = j0.output_version - 1 → q = p) →
        prev = some p.output) := by
  unfold dequeue at h
  cases hsel : oldestFirst (tbl.filter (dequeueEligible tbl maxR)) with
  | none =>
      rw [hsel] at h
      exact absurd h (by simp)
  | some j0 =>
      rw [hsel] at h
      simp only [Option.some.injEq, Prod.mk.injEq] at h
      obtain ⟨hj, hprev, htbl⟩ := h
      have hmemf := oldestFirst_mem hsel
      obtain ⟨hmem, helig⟩ := List.mem_filter.mp hmemf
      simp only [dequeueEligible, Bool.and_eq_true, decide_eq_true_eq,
        Bool.not_eq_true', List.any_eq_false] at helig
      obtain ⟨⟨hstat, hret⟩, hany⟩ := helig
      have hpredAll : ∀ p ∈ tbl, p.uid = j0.uid →
          p.output_version = j0.output_version - 1 → p.status = "completed" := by
        intro p hp h1 h2
        by_contra hne
        exact hany p hp ⟨⟨h1, h2⟩, hne⟩
      refine ⟨j0, hmem, hj.symm, hstat, hret, hpredAll, htbl.symm, ?_, ?_⟩
      · intro hnone
        have hfind : tbl.find? (fun p =>
            decide (p.uid = j0.uid) && decide (p.output_version = j0.output_version - 1)) =
            none := by
          rw [List.find?_eq_none]
          intro p hp
          simp only [Bool.and_eq_true, decide_eq_true_eq]
          exact fun hc => hnone p hp hc
        rw [← hprev]
        unfold previousOutputOf
        rw [hfind]
        rfl
      · intro p hp h1 h2 huniq
        cases hfq : tbl.find? (fun q =>
            decide (q.uid = j0.uid) && decide (q.output_version = j0.output_version - 1)) with
        | none =>
            exfalso
            have := List.find?_eq_none.mp hfq p hp
            simp only [Bool.and_eq_true, decide_eq_true_eq] at this
            exact this ⟨h1, h2⟩
        | some q =>
            have hqmem := List.mem_of_find?_eq_some hfq
            have hqpred := List.find?_some hfq
            simp only [Bool.and_eq_true, decide_eq_true_eq] at hqpred
            have hqp : q = p := huniq q hqmem hqpred.1 hqpred.2
            rw [← hprev]
            unfold previousOutputOf
            rw [hfq, hqp]
            rfl

/-- Witness for `dequeue_dag_eligibility`: a two-row workflow where step 0 is
completed and step 1 queued; dequeue claims step 1, flips it to processing and
returns step 0's output. -/
theorem dequeue_dag_eligibility_witness :
    dequeue [rowStep0Done, rowStep1Queued] 5 99 =
      some ({ rowStep1Queued with status := "processing", updated_at := 99 },
            some rowStep0Done.output,
            [rowStep0Done,
             { rowStep1Queued with status := "processing", updated_at := 99 }]) ∧
    (∃ j0 ∈ [rowStep0Done, rowStep1Queued],
      ({ rowStep1Queued with status := "processing", updated_at := 99 } : JobRow) =
        { j0 with status := "processing", updated_at := 99 } ∧
      j0.status = "queued" ∧ j0.retries ≤ 5 ∧
      (∀ p ∈ [rowStep0Done, rowStep1Queued], p.uid = j0.uid →
        p.output_version = j0.output_version - 1 → p.status = "completed") ∧
      [rowStep0Done, { rowStep1Queued with status := "processing", updated_at := 99 }] =
        [rowStep0Done, rowStep1Queued].map (fun r =>
          if r.id = j0.id then { r with status := "processing", updated_at := 99 }
          else r) ∧
      ((∀ p ∈ [rowStep0Done, rowStep1Queued],
          ¬(p.uid = j0.uid ∧ p.output_version = j0.output_version - 1)) →
        some rowStep0Done.output = none) ∧
      (∀ p ∈ [rowStep0Done, rowStep1Queued], p.uid = j0.uid →
        p.output_version = j0.output_version - 1 →
        (∀ q ∈ [rowStep0Done, rowStep1Queued], q.uid = j0.uid →
          q.output_version = j0.output_version - 1 → q = p) →
        some rowStep0Done.output = some p.output)) :=
  ⟨by decide,
   dequeue_dag_eligibility [rowStep0Done, rowStep1Queued] 5 99 _ _ _ (by decide)⟩


/-! ### Decomposition lemmas for the filter-graph steps -/

/-- Each step only appends to the parts list; old members survive. -/
theorem mem_of_parts_decomp {acc res : FCAcc} {l : List Stage}
    (hl : res.parts = acc.parts ++ l) {st : Stage} (h : st ∈ acc.parts) :
    st ∈ res.parts := by
  rw [hl]
  exact List.mem_append_left _ h

/-- Transfer of a pointwise property along a parts decomposition. -/
theorem all_of_parts_decomp {acc res : FCAcc} {l : List Stage}
    (hl : res.parts = acc.parts ++ l) {P : Stage → Prop}
    (h1 : ∀ st ∈ acc.parts, P st) (h2 : ∀ st ∈ l, P st) :
    ∀ st ∈ res.parts, P st := by
  rw [hl]
  intro st hst
  rcases List.mem_append.mp hst with h | h
  · exact h1 st h
  · exact h2 st h

theorem stepTrimBlock_parts (b : VideoBuilder) (tEnd : ℚ) (mo : Bool) (acc : FCAcc) :
    ∃ l, (stepTrimBlock b tEnd mo acc).parts = acc.parts ++ l ∧
      ∀ st ∈ l, ∃ ts e, st = Stage.videoTrim ts e (!mo) := by
  unfold stepTrimBlock
  cases b.trim_start with
  | none => exact ⟨[], by simp, by simp⟩
  | some ts =>
      refine ⟨[Stage.videoTrim ts tEnd (!mo)], by simp [FCAcc.push], ?_⟩
      intro st hst
      simp only [List.mem_singleton] at hst
      exact ⟨ts, tEnd, hst⟩

theorem stepCanvasTrim_parts (b : VideoBuilder) (wid hei : Int) (tEnd outD : ℚ)
    (mo : Bool) (acc : FCAcc) :
    ∃ l, (stepCanvasTrim b wid hei tEnd outD mo acc).parts = acc.parts ++ l ∧
      ∀ st ∈ l,
        (∃ c w h d, st = Stage.colorOnly c w h d) ∨
        (∃ c w h d, st = Stage.colorBgSemi c w h d) ∨
        (mo = false ∧ ∃ s e, st = Stage.audioTrimOnlyColor s e) ∨
        (∃ ts e, st = Stage.videoTrim ts e (!mo)) := by
  unfold stepCanvasTrim
  split
  case h_2 =>
      obtain ⟨l, hl, hq⟩ := stepTrimBlock_parts b tEnd mo acc
      exact ⟨l, hl, fun st hst => .inr (.inr (.inr (hq st hst)))⟩
  case h_1 bc heq =>
      by_cases hoc : bc.only_color = true
      · by_cases hmo : (!mo) = true
        · refine ⟨[Stage.colorOnly bc.color wid hei outD,
            Stage.audioTrimOnlyColor (b.trim_start.getD 0) tEnd],
            by simp [FCAcc.push, hoc, hmo], ?_⟩
          intro st hst
          rcases List.mem_cons.mp hst with rfl | hst
          · exact .inl ⟨_, _, _, _, rfl⟩
          · simp only [List.mem_singleton] at hst
            subst hst
            exact .inr (.inr (.inl ⟨by simpa using hmo, _, _, rfl⟩))
        · refine ⟨[Stage.colorOnly bc.color wid hei outD],
            by simp [FCAcc.push, hoc, hmo], ?_⟩
          intro st hst
          simp only [List.mem_singleton] at hst
          subst hst
          exact .inl ⟨_, _, _, _, rfl⟩
      · obtain ⟨l, hl, hq⟩ := stepTrimBlock_parts b tEnd mo
          (acc.push (Stage.colorBgSemi bc.color wid hei outD))
        refine ⟨Stage.colorBgSemi bc.color wid hei outD :: l, ?_, ?_⟩
        · rw [if_neg hoc]
          show (stepTrimBlock b tEnd mo
              (acc.push (Stage.colorBgSemi bc.color wid hei outD))).parts =
            acc.parts ++ Stage.colorBgSemi bc.color wid hei outD :: l
          rw [hl]
          simp [FCAcc.push]
        · intro st hst
          rcases List.mem_cons.mp hst with rfl | hst
          · exact .inr (.inl ⟨_, _, _, _, rfl⟩)
          · exact .inr (.inr (.inr (hq st hst)))

theorem stepSpeed_parts (segs : List SpeedSegment) (acc : FCAcc) :
    ∃ l, (stepSpeed segs acc).parts = acc.parts ++ l ∧
      ∀ st ∈ l,
        (∃ v a sp, st = Stage.speedSingle v a sp) ∨
        (∃ v a s2, st = Stage.speedMulti v a s2) ∨
        (∃ n, st = Stage.speedConcat n) := by
  unfold stepSpeed
  split
  · exact ⟨[], by simp, by simp⟩
  · rename_i seg
    by_cases hs : seg.speed ≠ 1
    · rw [if_pos hs]
      refine ⟨[Stage.speedSingle acc.vin acc.ain seg.speed], by simp [FCAcc.push], ?_⟩
      intro st hst
      simp only [List.mem_singleton] at hst
      subst hst
      exact .inl ⟨_, _, _, rfl⟩
    · rw [if_neg hs]
      exact ⟨[], by simp, by simp⟩
  · refine ⟨[Stage.speedMulti acc.vin acc.ain segs, Stage.speedConcat segs.length],
      by simp [FCAcc.push], ?_⟩
    intro st hst
    rcases List.mem_cons.mp hst with rfl | hst
    · exact .inr (.inl ⟨_, _, _, rfl⟩)
    · simp only [List.mem_singleton] at hst
      subst hst
      exact .inr (.inr ⟨_, rfl⟩)

theorem stepText_parts (b : VideoBuilder) (duration effD : ℚ) (acc : FCAcc) :
    ∃ l, (stepText b duration effD acc).parts = acc.parts ++ l ∧
      ∀ st ∈ l, ∃ v segs du ts e, st = Stage.textChain v segs du ts e := by
  unfold stepText
  by_cases hts : b.text_segments ≠ []
  · rw [if_pos hts]
    refine ⟨[Stage.textChain acc.vin b.text_segments duration b.trim_start effD],
      by simp [FCAcc.push], ?_⟩
    intro st hst
    simp only [List.mem_singleton] at hst
    subst hst
    exact ⟨_, _, _, _, _, rfl⟩
  · rw [if_neg hts]
    exact ⟨[], by simp, by simp⟩

theorem subtitleFold_parts (base : String) :
    ∀ (ps : List String) (i : Nat) (acc : FCAcc),
      ∃ l, (subtitleFold base ps i acc).parts = acc.parts ++ l ∧
        ∀ st ∈ l, ∃ v p lb, st = Stage.subtitles v p lb := by
  intro ps
  induction ps with
  | nil =>
      intro i acc
      exact ⟨[], by simp [subtitleFold], by simp⟩
  | cons p ps ih =>
      intro i acc
      obtain ⟨l, hl, hq⟩ := ih (i + 1)
        ({ acc.push (Stage.subtitles acc.vin p ("[" ++ base ++ toString i ++ "]")) with
            vin := "[" ++ base ++ toString i ++ "]" })
      refine ⟨Stage.subtitles acc.vin p ("[" ++ base ++ toString i ++ "]") :: l, ?_, ?_⟩
      · unfold subtitleFold
        rw [hl]
        simp [FCAcc.push]
      · intro st hst
        rcases List.mem_cons.mp hst with rfl | hst
        · exact ⟨_, _, _, rfl⟩
        · exact hq st hst

theorem stepKaraoke_parts (b : VideoBuilder) (assPaths : List String) (acc : FCAcc) :
    ∃ l, (stepKaraoke b assPaths acc).parts = acc.parts ++ l ∧
      ∀ st ∈ l, ∃ v p lb, st = Stage.subtitles v p lb := by
  unfold stepKaraoke
  by_cases hk : b.karaoke_segments ≠ []
  · rw [if_pos hk]
    exact subtitleFold_parts "v_kar" assPaths 0 acc
  · rw [if_neg hk]
    exact ⟨[], by simp, by simp⟩

theorem stepTextSequences_parts (b : VideoBuilder) (seqPaths : List String) (acc : FCAcc) :
    ∃ l, (stepTextSequences b seqPaths acc).parts = acc.parts ++ l ∧
      ∀ st ∈ l, ∃ v p lb, st = Stage.subtitles v p lb := by
  unfold stepTextSequences
  by_cases hk : b.text_sequences ≠ []
  · rw [if_pos hk]
    exact subtitleFold_parts "v_seq" seqPaths 0 acc
  · rw [if_neg hk]
    exact ⟨[], by simp, by simp⟩

theorem stepWatermark_parts (b : VideoBuilder) (acc : FCAcc) :
    ∃ l, (stepWatermark b acc).parts = acc.parts ++ l ∧
      ∀ st ∈ l, ∃ v o p, st = Stage.watermarkOverlay v o p := by
  unfold stepWatermark
  cases b.watermark with
  | none => exact ⟨[], by simp, by simp⟩
  | some wm =>
      refine ⟨[Stage.watermarkOverlay acc.vin wm.opacity wm.position],
        by simp [FCAcc.push], ?_⟩
      intro st hst
      simp only [List.mem_singleton] at hst
      subst hst
      exact ⟨_, _, _, rfl⟩

/-- The mute-source-with-explicit-trim branch of the background-audio block:
exactly one `bgAudioOnly` part at input index 1 when no watermark is set. -/
theorem stepBgAudio_mute_explicit (b : VideoBuilder) (outD : ℚ) (acc : FCAcc)
    (a : AudioOverlay) (hA : b.background_audio = some a) (hm : a.mute_source = true)
    (hw : b.watermark = none) :
    (stepBgAudio b true outD acc).parts =
      acc.parts ++ [Stage.bgAudioOnly 1 outD a.mix_volume] := by
  unfold stepBgAudio
  rw [hA, hw]
  simp [hm, FCAcc.push]

theorem stepTpad_parts (b : VideoBuilder) (effD outD : ℚ) (acc : FCAcc) :
    ∃ l, (stepTpad b effD outD acc).parts = acc.parts ++ l ∧
      ∀ st ∈ l, ∃ v pad, st = Stage.tpad v pad := by
  unfold stepTpad
  by_cases hc : (decide (effD < outD) && !b.onlyColorSet) = true
  · rw [if_pos hc]
    refine ⟨[Stage.tpad acc.vin (outD - effD)], by simp [FCAcc.push], ?_⟩
    intro st hst
    simp only [List.mem_singleton] at hst
    subst hst
    exact ⟨_, _, rfl⟩
  · rw [if_neg hc]
    exact ⟨[], by simp, by simp⟩

/-- When the output duration exceeds the effective duration and no
`only_color` background is set, the `tpad` part is emitted with the difference
as the pad length. -/
theorem stepTpad_pad (b : VideoBuilder) (effD outD : ℚ) (acc : FCAcc)
    (hlt : effD < outD) (hoc : b.onlyColorSet = false) :
    (stepTpad b effD outD acc).parts = acc.parts ++ [Stage.tpad acc.vin (outD - effD)] := by
  unfold stepTpad
  rw [if_pos (by simp [hlt, hoc])]
  simp [FCAcc.push]

theorem stepOverlayBg_parts (b : VideoBuilder) (acc : FCAcc) :
    ∃ l, (stepOverlayBg b acc).parts = acc.parts ++ l ∧
      ∀ st ∈ l, ∃ v, st = Stage.overlayBg v := by
  unfold stepOverlayBg
  split
  case h_2 => exact ⟨[], by simp, by simp⟩
  case h_1 bc heq =>
      by_cases hoc : (!bc.only_color) = true
      · rw [if_pos hoc]
        refine ⟨[Stage.overlayBg acc.vin], by simp [FCAcc.push], ?_⟩
        intro st hst
        simp only [List.mem_singleton] at hst
        subst hst
        exact ⟨_, rfl⟩
      · rw [if_neg hoc]
        exact ⟨[], by simp, by simp⟩

theorem stepScale_parts (scale : Option String) (acc : FCAcc) :
    ∃ l, (stepScale scale acc).parts = acc.parts ++ l ∧
      ∀ st ∈ l, ∃ v e, st = Stage.scaleStage v e := by
  unfold stepScale
  split
  case h_2 => exact ⟨[], by simp, by simp⟩
  case h_1 sv =>
      by_cases hs : sv ≠ ""
      · rw [if_pos hs]
        refine ⟨[Stage.scaleStage acc.vin sv], by simp [FCAcc.push], ?_⟩
        intro st hst
        simp only [List.mem_singleton] at hst
        subst hst
        exact ⟨_, _, rfl⟩
      · rw [if_neg hs]
        exact ⟨[], by simp, by simp⟩

theorem stepTerminal_parts (acc : FCAcc) :
    ∃ l, (stepTerminal acc).parts = acc.parts ++ l ∧
      ∀ st ∈ l, ∃ v a, st = Stage.terminal v a := by
  unfold stepTerminal
  refine ⟨[Stage.terminal acc.vin acc.ain], by simp [FCAcc.push], ?_⟩
  intro st hst
  simp only [List.mem_singleton] at hst
  subst hst
  exact ⟨_, _, rfl⟩


/-- Unfolding of `buildFilterStages` into its step chain. -/
theorem buildFilterStages_eq (b : VideoBuilder) (inp : FCInput) :
    buildFilterStages b inp =
      stepTerminal (stepScale inp.scale (stepOverlayBg b
        (stepTpad b (b.effectiveDuration inp.duration)
          (b.outputDuration inp.duration inp.audioDur)
          (stepBgAudio b b.trimExplicit (b.outputDuration inp.duration inp.audioDur)
            (stepWatermark b (stepTextSequences b inp.seqPaths
              (stepKaraoke b inp.karaokePaths
                (stepText b inp.duration (b.effectiveDuration inp.duration)
                  (stepSpeed (remapSpeedSegments b inp.duration)
                    (stepCanvasTrim b (inp.width.getD 1920) (inp.height.getD 1080)
                      (b.trimEnd inp.duration)
                      (b.outputDuration inp.duration inp.audioDur)
                      b.useMuteSourceOnly ({} : FCAcc))))))))))) := rfl

/-- With an explicit trim, the output duration is never extended. -/
theorem outputDuration_of_trimExplicit (b : VideoBuilder) (duration audioDur : ℚ)
    (ht : b.trimExplicit = true) :
    b.outputDuration duration audioDur = b.effectiveDuration duration := by
  unfold VideoBuilder.outputDuration
  rw [ht]
  simp

/-- Claim C4: for every builder state with background audio having
`mute_source = true`, an explicit trim, and no watermark, the compiled graph
uses only the background audio: it contains the stage rendering to
`[1:a]atrim=start=0:end=<D_out>,asetpts=PTS-STARTPTS,volume=<mix_volume>[a_mix]`
(the `atrim` to the effective output duration followed by `volume=mix_volume`),
contains no `amix` stage, and no stage produces an `[a_trim]` label at all —
in particular no `[a_trim]` label is produced but never consumed. -/
theorem mute_source_explicit_trim_background_only (b : VideoBuilder) (inp : FCInput)
    (a : AudioOverlay) (hA : b.background_audio = some a) (hm : a.mute_source = true)
    (ht : b.trimExplicit = true) (hw : b.watermark = none) :
    Stage.bgAudioOnly 1 (b.effectiveDuration inp.duration) a.mix_volume ∈
      (buildFilterStages b inp).parts ∧
    Stage.render (Stage.bgAudioOnly 1 (b.effectiveDuration inp.duration) a.mix_volume) =
      "[1:a]atrim=start=0:end=" ++ fmtQ (b.effectiveDuration inp.duration) ++
        ",asetpts=PTS-STARTPTS,volume=" ++ fmtQ a.mix_volume ++ "[a_mix]" ∧
    (∀ st ∈ (buildFilterStages b inp).parts, st.isAmix = false) ∧
    (∀ st ∈ (buildFilterStages b inp).parts, st.producesATrim = false) := by
  have hmo : b.useMuteSourceOnly = true := by
    simp [VideoBuilder.useMuteSourceOnly, hA, hm, ht]
  have hout := outputDuration_of_trimExplicit b inp.duration inp.audioDur ht
  rw [buildFilterStages_eq, hmo, ht, hout]
  set eff := b.effectiveDuration inp.duration with heff
  set A1 := stepCanvasTrim b (inp.width.getD 1920) (inp.height.getD 1080)
      (b.trimEnd inp.duration) eff true ({} : FCAcc) with hA1
  set A2 := stepSpeed (remapSpeedSegments b inp.duration) A1 with hA2
  set A3 := stepText b inp.duration eff A2 with hA3
  set A4 := stepKaraoke b inp.karaokePaths A3 with hA4
  set A5 := stepTextSequences b inp.seqPaths A4 with hA5
  set A6 := stepWatermark b A5 with hA6
  set A7 := stepBgAudio b true eff A6 with hA7
  set A8 := stepTpad b eff eff A7 with hA8
  set A9 := stepOverlayBg b A8 with hA9
  set A10 := stepScale inp.scale A9 with hA10
  set A11 := stepTerminal A10 with hA11
  obtain ⟨l1, e1, q1⟩ := stepCanvasTrim_parts b (inp.width.getD 1920)
    (inp.height.getD 1080) (b.trimEnd inp.duration) eff true ({} : FCAcc)
  obtain ⟨l2, e2, q2⟩ := stepSpeed_parts (remapSpeedSegments b inp.duration) A1
  obtain ⟨l3, e3, q3⟩ := stepText_parts b inp.duration eff A2
  obtain ⟨l4, e4, q4⟩ := stepKaraoke_parts b inp.karaokePaths A3
  obtain ⟨l5, e5, q5⟩ := stepTextSequences_parts b inp.seqPaths A4
  obtain ⟨l6, e6, q6⟩ := stepWatermark_parts b A5
  have e7 : A7.parts = A6.parts ++ [Stage.bgAudioOnly 1 eff a.mix_volume] :=
    stepBgAudio_mute_explicit b eff A6 a hA hm hw
  obtain ⟨l8, e8, q8⟩ := stepTpad_parts b eff eff A7
  obtain ⟨l9, e9, q9⟩ := stepOverlayBg_parts b A8
  obtain ⟨l10, e10, q10⟩ := stepScale_parts inp.scale A9
  obtain ⟨l11, e11, q11⟩ := stepTerminal_parts A10
  rw [← hA1] at e1
  have hmem : Stage.bgAudioOnly 1 eff a.mix_volume ∈ A11.parts := by
    apply mem_of_parts_decomp e11
    apply mem_of_parts_decomp e10
    apply mem_of_parts_decomp e9
    apply mem_of_parts_decomp e8
    rw [e7]
    exact List.mem_append_right _ (List.mem_singleton.mpr rfl)
  have hall : ∀ st ∈ A11.parts,
      st.isAmix = false ∧ st.producesATrim = false := by
    have p0 : ∀ st ∈ ({} : FCAcc).parts,
        st.isAmix = false ∧ st.producesATrim = false := by
      intro st hst
      simp at hst
    have p1 := all_of_parts_decomp e1 p0 (fun st hst => by
      rcases q1 st hst with ⟨c, w, h, d, rfl⟩ | ⟨c, w, h, d, rfl⟩ |
        ⟨hmo2, _⟩ | ⟨ts, e, rfl⟩
      · exact ⟨rfl, rfl⟩
      · exact ⟨rfl, rfl⟩
      · exact absurd hmo2 (by decide)
      · exact ⟨rfl, rfl⟩)
    have p2 := all_of_parts_decomp e2 p1 (fun st hst => by
      rcases q2 st hst with ⟨v, a2, sp, rfl⟩ | ⟨v, a2, s2, rfl⟩ | ⟨n, rfl⟩
      · exact ⟨rfl, rfl⟩
      · exact ⟨rfl, rfl⟩
      · exact ⟨rfl, rfl⟩)
    have p3 := all_of_parts_decomp e3 p2 (fun st hst => by
      obtain ⟨v, segs, du, ts, e, rfl⟩ := q3 st hst
      exact ⟨rfl, rfl⟩)
    have p4 := all_of_parts_decomp e4 p3 (fun st hst => by
      obtain ⟨v, p, lb, rfl⟩ := q4 st hst
      exact ⟨rfl, rfl⟩)
    have p5 := all_of_parts_decomp e5 p4 (fun st hst => by
      obtain ⟨v, p, lb, rfl⟩ := q5 st hst
      exact ⟨rfl, rfl⟩)
    have p6 := all_of_parts_decomp e6 p5 (fun st hst => by
      obtain ⟨v, o, p, rfl⟩ := q6 st hst
      exact ⟨rfl, rfl⟩)
    have p7 := all_of_parts_decomp e7 p6 (fun st hst => by
      simp only [List.mem_singleton] at hst
      subst hst
      exact ⟨rfl, rfl⟩)
    have p8 := all_of_parts_decomp e8 p7 (fun st hst => by
      obtain ⟨v, pad, rfl⟩ := q8 st hst
      exact ⟨rfl, rfl⟩)
    have p9 := all_of_parts_decomp e9 p8 (fun st hst => by
      obtain ⟨v, rfl⟩ := q9 st hst
      exact ⟨rfl, rfl⟩)
    have p10 := all_of_parts_decomp e10 p9 (fun st hst => by
      obtain ⟨v, e, rfl⟩ := q10 st hst
      exact ⟨rfl, rfl⟩)
    exact all_of_parts_decomp e11 p10 (fun st hst => by
      obtain ⟨v, a2, rfl⟩ := q11 st hst
      exact ⟨rfl, rfl⟩)
  exact ⟨hmem, rfl, fun st hst => (hall st hst).1, fun st hst => (hall st hst).2⟩

/-- Witness for `mute_source_explicit_trim_background_only` at the §8.5 state
(trim to 40 s, muted source, half-volume background audio, 30 s source). -/
theorem mute_source_explicit_trim_background_only_witness :
    exampleMuteTrimBuilder.background_audio =
      some { path := "long_music.mp3", mix_volume := 1 / 2, mute_source := true } ∧
    exampleMuteTrimBuilder.trimExplicit = true ∧
    exampleMuteTrimBuilder.watermark = none ∧
    (Stage.bgAudioOnly 1
        (exampleMuteTrimBuilder.effectiveDuration (30 : ℚ)) (1 / 2 : ℚ) ∈
      (buildFilterStages exampleMuteTrimBuilder
        { duration := 30, audioDur := 60 }).parts ∧
    Stage.render (Stage.bgAudioOnly 1
        (exampleMuteTrimBuilder.effectiveDuration (30 : ℚ)) (1 / 2 : ℚ)) =
      "[1:a]atrim=start=0:end=" ++
        fmtQ (exampleMuteTrimBuilder.effectiveDuration (30 : ℚ)) ++
        ",asetpts=PTS-STARTPTS,volume=" ++ fmtQ (1 / 2 : ℚ) ++ "[a_mix]" ∧
    (∀ st ∈ (buildFilterStages exampleMuteTrimBuilder
        { duration := 30, audioDur := 60 }).parts, st.isAmix = false) ∧
    (∀ st ∈ (buildFilterStages exampleMuteTrimBuilder
        { duration := 30, audioDur := 60 }).parts, st.producesATrim = false)) :=
  ⟨rfl, by with_unfolding_all rfl, rfl,
   mute_source_explicit_trim_background_only exampleMuteTrimBuilder
     { duration := 30, audioDur := 60 }
     { path := "long_music.mp3", mix_volume := 1 / 2, mute_source := true }
     rfl rfl (by with_unfolding_all rfl) rfl⟩


/-- Claim C5 counterexample: a builder state with background audio (60 s), no
explicit trim, a 30 s source — but an `only_color` background: the compiler
still sets the output duration to the audio duration, yet the emitted graph
contains no `tpad` stage at all (the color canvas is generated at the extended
duration instead), so the claim as stated fails at this state. -/
theorem audio_longer_only_color_no_tpad :
    exampleOnlyColorAudioBuilder.background_audio.isSome = true ∧
    exampleOnlyColorAudioBuilder.trimExplicit = false ∧
    exampleOnlyColorAudioBuilder.outputDuration 30 60 = 60 ∧
    (∀ st ∈ (buildFilterStages exampleOnlyColorAudioBuilder
        { duration := 30, audioDur := 60 }).parts, st.isTpad = false) ∧
    strContains (filterComplex exampleOnlyColorAudioBuilder
        { duration := 30, audioDur := 60 }) "tpad" = false := by
  refine ⟨rfl, by with_unfolding_all rfl, by with_unfolding_all rfl, ?_, ?_⟩
  · exact of_decide_eq_true (by with_unfolding_all rfl)
  · with_unfolding_all rfl

/-- Claim C5 (amended): for every builder state with background audio, no
explicit trim, a positive background-audio duration strictly greater than the
effective source duration, and no `only_color` background (the case the code
excludes from padding: there the color canvas itself is generated at the
extended duration), the compiler sets the output duration to the audio
duration and the emitted graph pads the video with a stage
`tpad=stop_mode=clone:stop_duration=<pad>` where
`pad = audio_duration − effective_duration`; in particular, for a 30-second
source and 60-second audio the emitted graph contains
`tpad=stop_mode=clone:stop_duration=30` and `duration=longest`. -/
theorem audio_longer_extends_with_tpad (b : VideoBuilder) (inp : FCInput)
    (hA : b.background_audio.isSome = true) (ht : b.trimExplicit = false)
    (hpos : 0 < inp.audioDur) (hgt : b.effectiveDuration inp.duration < inp.audioDur)
    (hoc : b.onlyColorSet = false) :
    b.outputDuration inp.duration inp.audioDur = inp.audioDur ∧
    (∃ v, Stage.tpad v (inp.audioDur - b.effectiveDuration inp.duration) ∈
      (buildFilterStages b inp).parts ∧
      Stage.render (Stage.tpad v (inp.audioDur - b.effectiveDuration inp.duration)) =
        v ++ "tpad=stop_mode=clone:stop_duration=" ++
          fmtQ2 (inp.audioDur - b.effectiveDuration inp.duration) ++ "[v_pad]") ∧
    strContains (filterComplex exampleAudioLongerBuilder
      { duration := 30, audioDur := 60 }) "tpad=stop_mode=clone:stop_duration=30" = true ∧
    strContains (filterComplex exampleAudioLongerBuilder
      { duration := 30, audioDur := 60 }) "duration=longest" = true := by
  have hout : b.outputDuration inp.duration inp.audioDur = inp.audioDur := by
    unfold VideoBuilder.outputDuration
    rw [if_pos]
    simp [hA, ht, hpos, hgt]
  refine ⟨hout, ?_, by with_unfolding_all rfl, by with_unfolding_all rfl⟩
  rw [buildFilterStages_eq, ht, hout]
  set eff := b.effectiveDuration inp.duration with heff
  set A7 := stepBgAudio b false inp.audioDur (stepWatermark b
    (stepTextSequences b inp.seqPaths (stepKaraoke b inp.karaokePaths
      (stepText b inp.duration eff (stepSpeed (remapSpeedSegments b inp.duration)
        (stepCanvasTrim b (inp.width.getD 1920) (inp.height.getD 1080)
          (b.trimEnd inp.duration) inp.audioDur b.useMuteSourceOnly
          ({} : FCAcc))))))) with hA7
  have e8 := stepTpad_pad b eff inp.audioDur A7 hgt hoc
  obtain ⟨l9, e9, q9⟩ := stepOverlayBg_parts b (stepTpad b eff inp.audioDur A7)
  obtain ⟨l10, e10, q10⟩ := stepScale_parts inp.scale
    (stepOverlayBg b (stepTpad b eff inp.audioDur A7))
  obtain ⟨l11, e11, q11⟩ := stepTerminal_parts
    (stepScale inp.scale (stepOverlayBg b (stepTpad b eff inp.audioDur A7)))
  refine ⟨A7.vin, ?_, rfl⟩
  apply mem_of_parts_decomp e11
  apply mem_of_parts_decomp e10
  apply mem_of_parts_decomp e9
  rw [e8]
  exact List.mem_append_right _ (List.mem_singleton.mpr rfl)

/-- Witness for `audio_longer_extends_with_tpad` at the §8.4 state
(30 s source, 60 s background audio, no trim, no background color). -/
theorem audio_longer_extends_with_tpad_witness :
    (exampleAudioLongerBuilder.background_audio.isSome = true ∧
      exampleAudioLongerBuilder.trimExplicit = false ∧
      (0 : ℚ) < 60 ∧
      exampleAudioLongerBuilder.effectiveDuration (30 : ℚ) < 60 ∧
      exampleAudioLongerBuilder.onlyColorSet = false) ∧
    (exampleAudioLongerBuilder.outputDuration 30 60 = 60 ∧
    (∃ v, Stage.tpad v ((60 : ℚ) - exampleAudioLongerBuilder.effectiveDuration 30) ∈
      (buildFilterStages exampleAudioLongerBuilder
        { duration := 30, audioDur := 60 }).parts ∧
      Stage.render (Stage.tpad v
          ((60 : ℚ) - exampleAudioLongerBuilder.effectiveDuration 30)) =
        v ++ "tpad=stop_mode=clone:stop_duration=" ++
          fmtQ2 ((60 : ℚ) - exampleAudioLongerBuilder.effectiveDuration 30) ++
          "[v_pad]") ∧
    strContains (filterComplex exampleAudioLongerBuilder
      { duration := 30, audioDur := 60 }) "tpad=stop_mode=clone:stop_duration=30" = true ∧
    strContains (filterComplex exampleAudioLongerBuilder
      { duration := 30, audioDur := 60 }) "duration=longest" = true) :=
  ⟨⟨rfl, rfl, by norm_num, by show (30 : ℚ) < 60; norm_num, rfl⟩,
   audio_longer_extends_with_tpad exampleAudioLongerBuilder
     { duration := 30, audioDur := 60 } rfl rfl (by norm_num)
     (by show (30 : ℚ) < 60; norm_num) rfl⟩


/-! ### Auxiliary facts for the bitrate-flag claim -/

/-- `pyTrunc` agrees with the floor on non-negative arguments. -/
theorem pyTrunc_nonneg (q : ℚ) (h : 0 ≤ q) : pyTrunc q = ⌊q⌋ := by
  unfold pyTrunc
  rw [if_neg (not_lt.mpr h)]

/-- A semicolon-join of a list ending in `a` ends in `a`. -/
theorem joinSep_ends_with (sep : String) (l : List String) (a : String) :
    ∃ p, joinSep sep (l ++ [a]) = p ++ a := by
  induction l with
  | nil => exact ⟨"", by simp [joinSep]⟩
  | cons x rest ih =>
      obtain ⟨p, hp⟩ := ih
      cases rest with
      | nil => exact ⟨x ++ sep, rfl⟩
      | cons y t =>
          refine ⟨x ++ sep ++ p, ?_⟩
          have hstep : joinSep sep ((x :: y :: t) ++ [a]) =
              x ++ sep ++ joinSep sep ((y :: t) ++ [a]) := rfl
          rw [hstep, hp]
          simp [String.append_assoc]

/-- The last part of the compiled graph is always the terminal pass-through. -/
theorem buildFilterStages_parts_terminal (b : VideoBuilder) (inp : FCInput) :
    ∃ front vin ain, (buildFilterStages b inp).parts =
      front ++ [Stage.terminal vin ain] := by
  rw [buildFilterStages_eq]
  exact ⟨_, _, _, rfl⟩

/-- The rendered filter-graph string ends in `anull[a_out]`, so it is never a
short flag token. -/
theorem renderJoin_ne (b : VideoBuilder) (inp2 : FCInput) (w : String)
    (hw : w.length < 12) :
    joinSep ";" ((buildFilterStages b inp2).parts.map Stage.render) ≠ w := by
  obtain ⟨front, vin, ain, hfa⟩ := buildFilterStages_parts_terminal b inp2
  rw [hfa, List.map_append]
  obtain ⟨p, hp⟩ := joinSep_ends_with ";" (front.map Stage.render)
    (Stage.render (Stage.terminal vin ain))
  simp only [List.map_cons, List.map_nil] at hp ⊢
  rw [hp]
  intro hcon
  have hlen := congrArg String.length hcon
  rw [String.length_append] at hlen
  have h18 : ("setpts=PTS[v_out];" : String).length = 18 := rfl
  have h12 : ("anull[a_out]" : String).length = 12 := rfl
  have : (Stage.render (Stage.terminal vin ain)).length =
      vin.length + 18 + ain.length + 12 := by
    show (vin ++ "setpts=PTS[v_out];" ++ ain ++ "anull[a_out]").length = _
    rw [String.length_append, String.length_append, String.length_append, h18, h12]
  omega

/-- `Nat.digitChar` never yields a colon on digits below 16. -/
theorem digitChar_ne_colon {d : Nat} (h : d < 16) : Nat.digitChar d ≠ ':' := by
  interval_cases d <;> decide

/-- No colon appears among the digits produced by `Nat.toDigitsCore` in
base 10. -/
theorem toDigitsCore_no_colon :
    ∀ (fuel n : Nat) (ds : List Char), (∀ c ∈ ds, c ≠ ':') →
      ∀ c ∈ Nat.toDigitsCore 10 fuel n ds, c ≠ ':' := by
  intro fuel
  induction fuel with
  | zero =>
      intro n ds hds c hc
      exact hds c hc
  | succ fuel ih =>
      intro n ds hds c hc
      have hdig : n % 10 < 16 :=
        Nat.lt_trans (Nat.mod_lt _ (by norm_num)) (by norm_num)
      simp only [Nat.toDigitsCore] at hc
      split at hc
      · rcases List.mem_cons.mp hc with rfl | hc2
        · exact digitChar_ne_colon hdig
        · exact hds c hc2
      · refine ih (n / 10) (Nat.digitChar (n % 10) :: ds) ?_ c hc
        intro c2 hc2
        rcases List.mem_cons.mp hc2 with rfl | hc3
        · exact digitChar_ne_colon hdig
        · exact hds c2 hc3

/-- No colon appears in the decimal rendering of a natural number. -/
theorem natRepr_no_colon (n : Nat) : ∀ c ∈ (Nat.repr n).data, c ≠ ':' := by
  intro c hc
  have hdata : (Nat.repr n).data = Nat.toDigits 10 n := rfl
  rw [hdata] at hc
  exact toDigitsCore_no_colon (n + 1) n [] (by simp) c hc

/-- No colon appears in `toString` of an integer. -/
theorem int_toString_no_colon (i : Int) : ∀ c ∈ (toString i).data, c ≠ ':' := by
  cases i with
  | ofNat m => exact fun c hc => natRepr_no_colon m c hc
  | negSucc m =>
      intro c hc
      have hd : (toString (Int.negSucc m)).data = '-' :: (Nat.repr (m + 1)).data := by
        show ("-" ++ Nat.repr (m + 1)).data = _
        rw [String.data_append]
        rfl
      rw [hd] at hc
      rcases List.mem_cons.mp hc with rfl | hc2
      · decide
      · exact natRepr_no_colon _ c hc2

/-- `toString` of an integer never equals a string containing a colon. -/
theorem int_toString_ne (i : Int) (s : String) (hs : ':' ∈ s.data) :
    toString i ≠ s := by
  intro h
  have hs2 := hs
  rw [← h] at hs2
  exact int_toString_no_colon i ':' hs2 rfl

/-- A string ending in `k` never equals a string whose last character is not
`k` (used for the `<bitrate>k` command elements). -/
theorem append_k_ne (s w : String) (hw : w.data.getLast? ≠ some 'k') :
    s ++ "k" ≠ w := by
  intro h
  apply hw
  rw [← h]
  show ((s ++ "k").data).getLast? = some 'k'
  rw [String.data_append]
  exact List.getLast?_concat _


/-- No short flag token occurs in the fixed head of the export command: every
element there is a distinct literal, a free string constrained by hypothesis,
or the rendered filter graph. -/
theorem flag_not_mem_export_head (b : VideoBuilder) (inp2 : FCInput)
    (cdc pre ac : String) (w : String) (hlen : w.length < 12)
    (hlit : w ≠ "ffmpeg" ∧ w ≠ "-i" ∧ w ≠ "-filter_complex" ∧ w ≠ "-map" ∧
      w ≠ "[v_out]" ∧ w ≠ "[a_out]" ∧ w ≠ "-c:v" ∧ w ≠ "-preset" ∧
      w ≠ "-c:a" ∧ w ≠ "-f" ∧ w ≠ "matroska")
    (hip : b.input_path ≠ w) (hcdc : cdc ≠ w) (hpre : pre ≠ w) (hac : ac ≠ w)
    (hextra : ∀ s ∈ (buildFilterStages b inp2).extra, s ≠ w) :
    w ∉ ["ffmpeg", "-i", b.input_path] ++
      (buildFilterStages b inp2).extra.flatMap (fun i => ["-i", i]) ++
      ["-filter_complex",
       joinSep ";" ((buildFilterStages b inp2).parts.map Stage.render),
       "-map", "[v_out]", "-map", "[a_out]", "-c:v", cdc, "-preset", pre,
       "-c:a", ac, "-f", "matroska"] := by
  obtain ⟨hl1, hl2, hl3, hl4, hl5, hl6, hl7, hl8, hl9, hl10, hl11⟩ := hlit
  intro hmem
  simp only [List.mem_append, List.mem_cons, List.mem_flatMap,
    List.not_mem_nil, or_false] at hmem
  rcases hmem with (h | h) | h
  · rcases h with h | h | h
    · exact hl1 h
    · exact hl2 h
    · exact hip h.symm
  · obtain ⟨i, hi, h2⟩ := h
    rcases h2 with h2 | h2
    · exact hl2 h2
    · exact hextra i hi h2.symm
  · rcases h with h | h | h | h | h | h | h | h | h | h | h | h | h | h
    · exact hl3 h
    · exact renderJoin_ne b inp2 w hlen h.symm
    · exact hl4 h
    · exact hl5 h
    · exact hl4 h
    · exact hl6 h
    · exact hl7 h
    · exact hcdc h.symm
    · exact hl8 h
    · exact hpre h.symm
    · exact hl9 h
    · exact hac h.symm
    · exact hl10 h
    · exact hl11 h

/-- No flag token other than `-b:a` occurs in the optional audio-bitrate tail
of the export command. -/
theorem flag_not_mem_audio_part (o : Option String) (w : String)
    (hw : w ≠ "-b:a") (ho : ∀ s, o = some s → s ≠ w) :
    w ∉ (match o with
      | some s => if s ≠ "" then ["-b:a", s] else []
      | none => ([] : List String)) := by
  cases o with
  | none => simp
  | some s =>
      show w ∉ (if s ≠ "" then ["-b:a", s] else [])
      by_cases hs : s = ""
      · rw [if_neg (not_not_intro hs)]
        simp
      · rw [if_pos hs]
        intro hmem
        rcases List.mem_cons.mp hmem with h | h
        · exact hw h
        · rw [List.mem_singleton] at h
          exact ho s rfl h.symm

/-- C6: in export mode with filters, a positive `target_size_mb` yields
`-b:v`, `-maxrate` and `-bufsize` flags computed from the target bitrate
`max 100 (floor(target_size_mb * 8192 / duration) - 128)` (with maxrate the
floor of 1.5x and bufsize 2x that bitrate) and no `-crf` flag; otherwise the
command carries `-crf <crf>` and no `-b:v` flag. -/
theorem target_size_bitrate_flags (b : VideoBuilder) (inp : FCInput)
    (opts : TranscodeOptions)
    (hopts : b.transcode = some opts)
    (hfilters : b.hasFilters opts = true)
    (hdur : 0 ≤ inp.duration)
    (hfree : ∀ s ∈ b.input_path :: opts.codec :: opts.preset ::
        opts.audio_codec ::
        (buildFilterStages b { inp with scale := opts.scale }).extra,
        s ≠ "-crf" ∧ s ≠ "-b:v")
    (hab : ∀ s, opts.audio_bitrate = some s → s ≠ "-crf" ∧ s ≠ "-b:v") :
    (∀ mb, opts.target_size_mb = some mb → 0 < mb →
      ∃ t l1 l2,
        t = max 100
          (⌊mb * 8192 / (if inp.duration = 0 then 1 else inp.duration)⌋ - 128) ∧
        buildExportCmd b inp = l1 ++
          ["-b:v", toString t ++ "k",
           "-maxrate", toString ⌊(t : ℚ) * (3 / 2)⌋ ++ "k",
           "-bufsize", toString (t * 2) ++ "k"] ++ l2 ∧
        "-crf" ∉ buildExportCmd b inp) ∧
    ((∀ mb, opts.target_size_mb = some mb → mb ≤ 0) →
      (∃ l1 l2, buildExportCmd b inp = l1 ++
          ["-crf", toString opts.crf] ++ l2) ∧
        "-b:v" ∉ buildExportCmd b inp) := by
  have hdpos : 0 < (if inp.duration = 0 then 1 else inp.duration) := by
    by_cases h0 : inp.duration = 0
    · rw [if_pos h0]; norm_num
    · rw [if_neg h0]; exact lt_of_le_of_ne hdur (Ne.symm h0)
  have hcmd : buildExportCmd b inp =
      (["ffmpeg", "-i", b.input_path] ++
       (buildFilterStages b { inp with scale := opts.scale }).extra.flatMap
         (fun i => ["-i", i]) ++
       ["-filter_complex",
        joinSep ";"
          ((buildFilterStages b { inp with scale := opts.scale }).parts.map
            Stage.render),
        "-map", "[v_out]", "-map", "[a_out]", "-c:v", opts.codec, "-preset",
        opts.preset, "-c:a", opts.audio_codec, "-f", "matroska"]) ++
      (match opts.target_size_mb with
       | some mb =>
           if 0 < mb then
             ["-b:v",
              toString (max 100 (pyTrunc (mb * 8192 /
                (if inp.duration = 0 then 1 else inp.duration)) - 128)) ++ "k",
              "-maxrate",
              toString (pyTrunc (((max 100 (pyTrunc (mb * 8192 /
                (if inp.duration = 0 then 1 else inp.duration)) - 128) : Int) :
                ℚ) * (3 / 2))) ++ "k",
              "-bufsize",
              toString ((max 100 (pyTrunc (mb * 8192 /
                (if inp.duration = 0 then 1 else inp.duration)) - 128)) * 2) ++
                "k"]
           else ["-crf", toString opts.crf]
       | none => ["-crf", toString opts.crf]) ++
      (match opts.audio_bitrate with
       | some s => if s ≠ "" then ["-b:a", s] else []
       | none => []) := by
    unfold buildExportCmd
    rw [hopts]
    simp only [Option.getD_some, hfilters, Bool.not_true]
    rfl
  obtain ⟨hip, hcdc, hpre, hac, hextra⟩ :
      (b.input_path ≠ "-crf" ∧ b.input_path ≠ "-b:v") ∧
      (opts.codec ≠ "-crf" ∧ opts.codec ≠ "-b:v") ∧
      (opts.preset ≠ "-crf" ∧ opts.preset ≠ "-b:v") ∧
      (opts.audio_codec ≠ "-crf" ∧ opts.audio_codec ≠ "-b:v") ∧
      (∀ s ∈ (buildFilterStages b { inp with scale := opts.scale }).extra,
        s ≠ "-crf" ∧ s ≠ "-b:v") := by
    refine ⟨hfree _ ?_, hfree _ ?_, hfree _ ?_, hfree _ ?_, fun s hs => hfree s ?_⟩
    · exact List.mem_cons_self _ _
    · exact List.mem_cons_of_mem _ (List.mem_cons_self _ _)
    · exact List.mem_cons_of_mem _ (List.mem_cons_of_mem _ (List.mem_cons_self _ _))
    · exact List.mem_cons_of_mem _ (List.mem_cons_of_mem _
        (List.mem_cons_of_mem _ (List.mem_cons_self _ _)))
    · exact List.mem_cons_of_mem _ (List.mem_cons_of_mem _
        (List.mem_cons_of_mem _ (List.mem_cons_of_mem _ hs)))
  constructor
  · intro mb hmb hpos
    have hq : (0 : ℚ) ≤ mb * 8192 / (if inp.duration = 0 then 1 else inp.duration) :=
      div_nonneg (by positivity) (le_of_lt hdpos)
    have htb : pyTrunc (mb * 8192 / (if inp.duration = 0 then 1 else inp.duration)) =
        ⌊mb * 8192 / (if inp.duration = 0 then 1 else inp.duration)⌋ :=
      pyTrunc_nonneg _ hq
    have hmr : pyTrunc (((max 100 (pyTrunc (mb * 8192 /
        (if inp.duration = 0 then 1 else inp.duration)) - 128) : Int) : ℚ) * (3 / 2)) =
        ⌊(((max 100 (pyTrunc (mb * 8192 /
          (if inp.duration = 0 then 1 else inp.duration)) - 128) : Int) : ℚ) * (3 / 2))⌋ := by
      apply pyTrunc_nonneg
      have h100 : (100 : Int) ≤ max 100 (pyTrunc (mb * 8192 /
          (if inp.duration = 0 then 1 else inp.duration)) - 128) := le_max_left _ _
      have : (0 : ℚ) ≤ ((max 100 (pyTrunc (mb * 8192 /
          (if inp.duration = 0 then 1 else inp.duration)) - 128) : Int) : ℚ) := by
        exact_mod_cast le_trans (by norm_num) h100
      positivity
    have hrc : (match opts.target_size_mb with
        | some mb =>
            if 0 < mb then
              ["-b:v",
               toString (max 100 (pyTrunc (mb * 8192 /
                 (if inp.duration = 0 then 1 else inp.duration)) - 128)) ++ "k",
               "-maxrate",
               toString (pyTrunc (((max 100 (pyTrunc (mb * 8192 /
                 (if inp.duration = 0 then 1 else inp.duration)) - 128) : Int) :
                 ℚ) * (3 / 2))) ++ "k",
               "-bufsize",
               toString ((max 100 (pyTrunc (mb * 8192 /
                 (if inp.duration = 0 then 1 else inp.duration)) - 128)) * 2) ++
                 "k"]
            else ["-crf", toString opts.crf]
        | none => ["-crf", toString opts.crf]) =
        ["-b:v",
         toString (max 100 (pyTrunc (mb * 8192 /
           (if inp.duration = 0 then 1 else inp.duration)) - 128)) ++ "k",
         "-maxrate",
         toString (pyTrunc (((max 100 (pyTrunc (mb * 8192 /
           (if inp.duration = 0 then 1 else inp.duration)) - 128) : Int) :
           ℚ) * (3 / 2))) ++ "k",
         "-bufsize",
         toString ((max 100 (pyTrunc (mb * 8192 /
           (if inp.duration = 0 then 1 else inp.duration)) - 128)) * 2) ++
           "k"] := by
      rw [hmb]
      show (if 0 < mb then _ else _) = _
      rw [if_pos hpos]
    rw [hrc, hmr] at hcmd
    refine ⟨max 100 (pyTrunc (mb * 8192 /
        (if inp.duration = 0 then 1 else inp.duration)) - 128), _, _,
      by rw [htb], hcmd, ?_⟩
    rw [hcmd]
    intro hmem
    rw [List.mem_append, List.mem_append] at hmem
    rcases hmem with (h | h) | h
    · exact flag_not_mem_export_head b _ _ _ _ "-crf" (by decide) (by decide)
        hip.1 hcdc.1 hpre.1 hac.1 (fun s hs => (hextra s hs).1) h
    · simp only [List.mem_cons, List.not_mem_nil, or_false] at h
      rcases h with h | h | h | h | h | h
      · exact absurd h (by decide)
      · exact append_k_ne _ "-crf" (by decide) h.symm
      · exact absurd h (by decide)
      · exact append_k_ne _ "-crf" (by decide) h.symm
      · exact absurd h (by decide)
      · exact append_k_ne _ "-crf" (by decide) h.symm
    · exact flag_not_mem_audio_part opts.audio_bitrate "-crf" (by decide)
        (fun s hs => (hab s hs).1) h
  · intro hneg
    have hrc : (match opts.target_size_mb with
        | some mb =>
            if 0 < mb then
              ["-b:v",
               toString (max 100 (pyTrunc (mb * 8192 /
                 (if inp.duration = 0 then 1 else inp.duration)) - 128)) ++ "k",
               "-maxrate",
               toString (pyTrunc (((max 100 (pyTrunc (mb * 8192 /
                 (if inp.duration = 0 then 1 else inp.duration)) - 128) : Int) :
                 ℚ) * (3 / 2))) ++ "k",
               "-bufsize",
               toString ((max 100 (pyTrunc (mb * 8192 /
                 (if inp.duration = 0 then 1 else inp.duration)) - 128)) * 2) ++
                 "k"]
            else ["-crf", toString opts.crf]
        | none => ["-crf", toString opts.crf]) = ["-crf", toString opts.crf] := by
      cases hts : opts.target_size_mb with
      | none => rfl
      | some mb =>
          show (if 0 < mb then _ else _) = _
          rw [if_neg (not_lt.mpr (hneg mb hts))]
    rw [hrc] at hcmd
    refine ⟨⟨_, _, hcmd⟩, ?_⟩
    rw [hcmd]
    intro hmem
    rw [List.mem_append, List.mem_append] at hmem
    rcases hmem with (h | h) | h
    · exact flag_not_mem_export_head b _ _ _ _ "-b:v" (by decide) (by decide)
        hip.2 hcdc.2 hpre.2 hac.2 (fun s hs => (hextra s hs).2) h
    · simp only [List.mem_cons, List.not_mem_nil, or_false] at h
      rcases h with h | h
      · exact absurd h (by decide)
      · exact int_toString_ne opts.crf "-b:v" (by decide) h.symm
    · exact flag_not_mem_audio_part opts.audio_bitrate "-b:v" (by decide)
        (fun s hs => (hab s hs).2) h

/-- Witness: the compress example (5 MB target, 30 s source) carries the
bitrate flags for a 1237 kbps target and no `-crf`. -/
theorem target_size_bitrate_flags_witness :
    (∃ t l1 l2,
        t = max 100 (⌊(5 : ℚ) * 8192 /
          (if exampleExportInput.duration = 0 then 1
           else exampleExportInput.duration)⌋ - 128) ∧
        buildExportCmd exampleCompressBuilder exampleExportInput = l1 ++
          ["-b:v", toString t ++ "k",
           "-maxrate", toString ⌊(t : ℚ) * (3 / 2)⌋ ++ "k",
           "-bufsize", toString (t * 2) ++ "k"] ++ l2 ∧
        "-crf" ∉ buildExportCmd exampleCompressBuilder exampleExportInput) ∧
    max 100 (⌊(5 : ℚ) * 8192 /
      (if exampleExportInput.duration = 0 then 1
       else exampleExportInput.duration)⌋ - 128) = 1237 := by
  constructor
  · exact (target_size_bitrate_flags exampleCompressBuilder exampleExportInput
      exampleCompressOpts rfl (by with_unfolding_all rfl)
      (of_decide_eq_true (by with_unfolding_all rfl))
      (of_decide_eq_true (by with_unfolding_all rfl))
      (fun s hs => by
        have h2 : some "128k" = some s := hs
        injection h2 with h
        subst h
        exact ⟨of_decide_eq_true rfl, of_decide_eq_true rfl⟩)).1 5 rfl
      (by norm_num)
  · with_unfolding_all rfl

end Clipper
